import Mathlib

/-!
# Formal model of django-velcro

A shallow embedding of the `django_velcro` package (files `models.py`,
`utils.py`, `admin.py`, `settings.py`).  Configuration dictionaries
(`VELCRO_METADATA`, `VELCRO_RELATIONSHIPS`) are modelled as association
lists, Python strings as Lean `String`, and the Django ORM as a store of
rows keyed by field-name strings (a row is an association list from field
names to values).  Each definition is translated from the corresponding
Python function; doc comments name the source function.
-/

namespace Velcro

/-! ## Python string primitives

Python compares strings by code points; `str.capitalize()` uppercases the
first character and lowercases the rest; `str.title()` uppercases every
character that follows a non-alphabetic one; `str.lower()` lowercases all
characters.  We implement these over `String.data` so that they reduce in
the kernel. -/

/-- Code-point lexicographic comparison of character lists (Python `<=`). -/
def charListLe : List Char → List Char → Bool
  | [], _ => true
  | _ :: _, [] => false
  | c :: cs, d :: ds =>
      if c.toNat < d.toNat then true
      else if d.toNat < c.toNat then false
      else charListLe cs ds

/-- Python string `<=` (code-point lexicographic). -/
def strLe (a b : String) : Bool := charListLe a.data b.data

/-- Python `str.lower()`. -/
def pyLower (s : String) : String := ⟨s.data.map Char.toLower⟩

/-- Python `str.capitalize()`: first character uppercased, rest lowercased. -/
def pyCapitalize (s : String) : String :=
  match s.data with
  | [] => ⟨[]⟩
  | c :: cs => ⟨c.toUpper :: cs.map Char.toLower⟩

/-- Helper for `pyTitle`: the boolean records whether the previous character
was alphabetic. -/
def pyTitleGo : List Char → Bool → List Char
  | [], _ => []
  | c :: cs, prevAlpha =>
      (if c.isAlpha then (if prevAlpha then c.toLower else c.toUpper) else c)
        :: pyTitleGo cs c.isAlpha

/-- Python `str.title()` (restricted to alphabetic casing). -/
def pyTitle (s : String) : String := ⟨pyTitleGo s.data false⟩

/-- Python `sorted` on a two-tuple of strings. -/
def sortPairStr (a b : String) : String × String :=
  if strLe a b then (a, b) else (b, a)

/-- Python `sorted` on a list of strings (stable sort, code-point order). -/
def sortStrs (l : List String) : List String :=
  List.insertionSort (fun a b => strLe a b = true) l

/-! ## Configuration (`settings.VELCRO_METADATA`, `settings.VELCRO_RELATIONSHIPS`) -/

/-- One entry of a velcro type's `'apps'` list in `VELCRO_METADATA`. -/
structure ModelMeta where
  app_label : String
  model : String
  view : String
  url_args : List String
deriving DecidableEq

/-- The optional `'options'` dict of a velcro type in `VELCRO_METADATA`. -/
structure TypeOptions where
  verbose_name : Option String
  verbose_name_plural : Option String
deriving DecidableEq

/-- The metadata dict of one velcro type. -/
structure TypeMeta where
  apps : List ModelMeta
  options : TypeOptions
deriving DecidableEq

/-- `VELCRO_METADATA`: a dict from velcro type names to their metadata. -/
abbrev Metadata := List (String × TypeMeta)

/-- `VELCRO_RELATIONSHIPS`: a list of two-tuples of velcro type names. -/
abbrev Relationships := List (String × String)

/-- A Django model instance: its model class is identified by
`_meta.app_label` and `_meta.object_name` (the class name), and the
instance by its integer `id`.  Django model equality compares the model
class and the primary key, which structural equality captures. -/
structure Obj where
  app_label : String
  object_name : String
  id : Nat
deriving DecidableEq

/-- Python `sorted(VELCRO_METADATA.items())`: dict items sorted by key
(keys are unique, so values are never compared). -/
def sortByKey (md : Metadata) : List (String × TypeMeta) :=
  List.insertionSort (fun a b => strLe a.1 b.1 = true) md

/-- Python `'{}'.format(x)` on a value that may be `None`. -/
def pyFmt : Option String → String
  | some s => s
  | none => "None"

/-! ## The ORM abstraction (success paths, no field-name resolution)

Rows of a relationship table are association lists from field-name strings
to values, mirroring the keyword-argument dicts Django query methods take.
A database maps relationship class names to tables.  `get` returns the
first matching row (the success case of `QuerySet.get`), `get_or_create`
creates a row holding exactly the keyword arguments of the query, and
`delete` removes the row by primary key.  This layer models only the
success paths: Django's resolution of keyword names against the model's
declared fields (which raises `FieldError`/`TypeError` for unknown names)
is added in a second layer further below, and the agreement of the query
field names with the generated models' field names is analysed against
the generated models. -/

/-- A Django field value: a `ContentType` (identified by app label and
lowercased model name, as `ContentType.objects.get_for_model` yields), an
integer, or a string. -/
inductive Val where
  | ct (app_label : String) (model : String)
  | num (n : Nat)
  | str (s : String)
deriving DecidableEq

/-- `ContentType.objects.get_for_model(object)`. -/
def contentTypeOf (o : Obj) : Val := Val.ct (pyLower o.app_label) (pyLower o.object_name)

/-- A stored relationship row: field name ↦ value. -/
abbrev Row := List (String × Val)

/-- A relationship table: primary key ↦ row. -/
abbrev Table := List (Nat × Row)

/-- The relationship database: relationship class name ↦ table. -/
abbrev DB := List (String × Table)

/-- Field access on a row. -/
def rowGet (row : Row) (k : String) : Option Val := List.lookup k row

/-- A Django query expression: a conjunctive keyword dict (`Q(**kwargs)`)
or a disjunction (`Q(...) | Q(...)`). -/
inductive QExpr where
  | kv (pairs : List (String × Val))
  | qor (a b : QExpr)

/-- A row satisfies a keyword dict when every key holds the given value. -/
def kvMatches (row : Row) (pairs : List (String × Val)) : Bool :=
  pairs.all fun p => rowGet row p.1 == some p.2

/-- A row satisfies a query expression. -/
def qMatches (row : Row) : QExpr → Bool
  | QExpr.kv pairs => kvMatches row pairs
  | QExpr.qor a b => qMatches row a || qMatches row b

/-- `objects.get(...)` (success case): the first matching row.  Neither
Django's field-name resolution (`FieldError`) nor its
`MultipleObjectsReturned` raise for a second match is modelled at this
layer: `checkedGet` below adds the former, and the relevant queries match
at most one row in the executions analysed. -/
def tableGet (t : Table) (q : QExpr) : Option (Nat × Row) :=
  t.find? fun e => qMatches e.2 q

/-- A fresh primary key for an insert. -/
def freshPk (t : Table) : Nat := t.foldr (fun e acc => max e.1 acc) 0 + 1

/-- `.delete()` of the row with the given primary key. -/
def tableDelete (t : Table) (pk : Nat) : Table := t.filter fun e => e.1 != pk

/-- `objects.get_or_create(**pairs)` (success case): the first matching
row, or a new row holding exactly the query's keyword arguments.  No
field-name resolution happens at this layer; `checkedGetOrCreate` below
adds it. -/
def getOrCreate (t : Table) (pairs : List (String × Val)) : Table × Nat × Bool :=
  match tableGet t (QExpr.kv pairs) with
  | some (pk, _) => (t, pk, false)
  | none => (t ++ [(freshPk t, pairs)], freshPk t, true)

/-- `apps.get_model(__package__, name)` over the database. -/
def dbLookup (db : DB) (name : String) : Option Table := List.lookup name db

/-- Write a table back under its class name (adding it if absent). -/
def dbSet : DB → String → Table → DB
  | [], name, t => [(name, t)]
  | (n, t0) :: rest, name, t =>
      if n == name then (n, t) :: rest else (n, t0) :: dbSet rest name t

/-- The table of a relationship class (empty when absent). -/
def dbGetTable (db : DB) (name : String) : Table := (dbLookup db name).getD []

/-- The field names a query expression refers to. -/
def qexprKeys : QExpr → List String
  | QExpr.kv pairs => pairs.map Prod.fst
  | QExpr.qor a b => qexprKeys a ++ qexprKeys b

/-! ## `utils.py` -/

/-- The matching test inside `utils.get_velcro_type`'s inner loop:
`model_metadata['app_label'] == app_label and model_metadata['model'] == model`. -/
def modelMetadataMatches (mm : ModelMeta) (app_label model : String) : Bool :=
  mm.app_label == app_label && mm.model == model

/-- The loop of `utils.get_velcro_type` over `sorted(VELCRO_METADATA.items())`:
return the first velcro type one of whose `'apps'` entries matches. -/
def getVelcroTypeGo (app_label model : String) : List (String × TypeMeta) → Option String
  | [] => none
  | (vt, tm) :: rest =>
      if tm.apps.any fun mm => modelMetadataMatches mm app_label model
      then some vt
      else getVelcroTypeGo app_label model rest

/-- `utils.get_velcro_type`: the object's app label is lowercased, its class
name is used as-is, and the sorted metadata items are scanned for a
matching `'apps'` entry; `None` when nothing matches. -/
def get_velcro_type (md : Metadata) (o : Obj) : Option String :=
  getVelcroTypeGo (pyLower o.app_label) o.object_name (sortByKey md)

/-- `utils.get_all_velcro_types`. -/
def get_all_velcro_types (md : Metadata) : List String :=
  sortStrs (md.map Prod.fst)

/-- `utils.is_valid_velcro_type`: membership in `VELCRO_METADATA.keys()`
(the source returns `True` or `None`; the truth value is modelled). -/
def is_valid_velcro_type (md : Metadata) (velcro_type : String) : Bool :=
  (md.map Prod.fst).contains velcro_type

/-- The body of `utils.get_related_types`' loop: for a relationship tuple
containing the velcro type, the member on the other side (`r[1]` when
`r.index(velcro_type) == 0`, else `r[0]`). -/
def relatedOf (velcro_type : String) (r : String × String) : Option String :=
  if r.1 == velcro_type then some r.2
  else if r.2 == velcro_type then some r.1
  else none

/-- `utils.get_related_types`: the other member of every relationship tuple
containing the velcro type, sorted. -/
def get_related_types (rels : Relationships) (velcro_type : String) : List String :=
  sortStrs (rels.filterMap (relatedOf velcro_type))

/-- The accumulating loop of `utils.validate_related_types`: invalid
entries, entries unrelated to the velcro type, and duplicates only produce
printed warnings and are skipped. -/
def validateGo (md : Metadata) (all_related : List String) :
    List String → List String → List String
  | [], valid => valid
  | rt :: rest, valid =>
      if is_valid_velcro_type md rt = false then validateGo md all_related rest valid
      else if rt ∉ all_related then validateGo md all_related rest valid
      else if rt ∈ valid then validateGo md all_related rest valid
      else validateGo md all_related rest (valid ++ [rt])

/-- `utils.validate_related_types`. -/
def validate_related_types (md : Metadata) (rels : Relationships)
    (velcro_type : String) (related_types : List String) : List String :=
  validateGo md (get_related_types rels velcro_type) related_types []

/-- `utils.get_or_validate_related_types`: Python truthiness of the
`related_types` argument (absent or empty both falsy) selects between
validation and the full related-type list. -/
def get_or_validate_related_types (md : Metadata) (rels : Relationships)
    (velcro_type : String) (related_types : List String) : List String :=
  if related_types ≠ [] then validate_related_types md rels velcro_type related_types
  else get_related_types rels velcro_type

/-- `utils.get_relationship_class`'s class-name computation:
`'{}{}Relationship'.format(*sorted((t1.capitalize(), t2.capitalize())))`. -/
def get_relationship_class_name (t1 t2 : String) : String :=
  (sortPairStr (pyCapitalize t1) (pyCapitalize t2)).1
    ++ (sortPairStr (pyCapitalize t1) (pyCapitalize t2)).2
    ++ "Relationship"

/-- `utils._relationship_query`: the keyword dict used by the
differing-type add/remove helpers; keys are velcro-type-prefixed
`_content_type` / `_object_id` names. -/
def _relationship_query (o1 : Obj) (t1 : Option String) (o2 : Obj) (t2 : Option String) :
    List (String × Val) :=
  [ (pyFmt t1 ++ "_content_type", contentTypeOf o1),
    (pyFmt t1 ++ "_object_id", Val.num o1.id),
    (pyFmt t2 ++ "_content_type", contentTypeOf o2),
    (pyFmt t2 ++ "_object_id", Val.num o2.id) ]

/-- `utils._add_or_remove_related_content_difftype` over the store without
field-name resolution.  The velcro types come from `get_velcro_type` and
may be `None`, on which `get_relationship_class` would raise
`AttributeError`; a missing relationship class raises `LookupError` from
`apps.get_model`.  The database branches are reachable only under a
schema accepting the helper's keyword names;
`_add_or_remove_related_content_difftype_resolved` below evaluates the
same control flow with Django's field resolution. -/
def _add_or_remove_related_content_difftype (db : DB) (o1 o2 : Obj)
    (t1 t2 : Option String) (add_or_remove : String) :
    Except String (DB × Option (Nat × Bool)) :=
  match t1, t2 with
  | some a, some b =>
      let cname := get_relationship_class_name a b
      (match dbLookup db cname with
       | none => Except.error "LookupError"
       | some table =>
          let query := _relationship_query o1 t1 o2 t2
          if add_or_remove == "add" then
            let r := getOrCreate table query
            Except.ok (dbSet db cname r.1, some r.2)
          else if add_or_remove == "remove" then
            match tableGet table (QExpr.kv query) with
            | some (pk, _) => Except.ok (dbSet db cname (tableDelete table pk), none)
            | none => Except.error "DoesNotExist"
          else
            Except.ok (db, none))
  | _, _ => Except.error "AttributeError"

/-- The symmetric disjunctive query of
`utils._add_or_remove_related_content_sametype`. -/
def sametypeAddRemoveQuery (o1 o2 : Obj) : QExpr :=
  QExpr.qor
    (QExpr.kv [("content_type_1", contentTypeOf o1), ("object_id_1", Val.num o1.id),
               ("content_type_2", contentTypeOf o2), ("object_id_2", Val.num o2.id)])
    (QExpr.kv [("content_type_1", contentTypeOf o2), ("object_id_1", Val.num o2.id),
               ("content_type_2", contentTypeOf o1), ("object_id_2", Val.num o1.id)])

/-- `utils._add_or_remove_related_content_sametype` over the store without
field-name resolution: raises `ValueError` when the two objects are equal
(this guard runs before any database access and is faithful to every
execution), otherwise matches either orientation; on add, a bare `except`
around `get` leads to `create` with the forward orientation.  The
database branches are reachable only under a schema accepting the
helper's keyword names;
`_add_or_remove_related_content_sametype_resolved` below evaluates the
same control flow with Django's field resolution. -/
def _add_or_remove_related_content_sametype (db : DB) (o1 o2 : Obj)
    (t1 t2 : Option String) (add_or_remove : String) :
    Except String (DB × Option (Nat × Bool)) :=
  if o1 = o2 then
    Except.error "ValueError"
  else
    match t1, t2 with
    | some a, some b =>
        let cname := get_relationship_class_name a b
        (match dbLookup db cname with
         | none => Except.error "LookupError"
         | some table =>
            let query := sametypeAddRemoveQuery o1 o2
            if add_or_remove == "add" then
              match tableGet table query with
              | some (pk, _) => Except.ok (db, some (pk, false))
              | none =>
                  let params : Row :=
                    [("content_type_1", contentTypeOf o1), ("object_id_1", Val.num o1.id),
                     ("content_type_2", contentTypeOf o2), ("object_id_2", Val.num o2.id)]
                  Except.ok
                    (dbSet db cname (table ++ [(freshPk table, params)]),
                     some (freshPk table, true))
            else if add_or_remove == "remove" then
              match tableGet table query with
              | some (pk, _) => Except.ok (dbSet db cname (tableDelete table pk), none)
              | none => Except.error "DoesNotExist"
            else
              Except.ok (db, none))
    | _, _ => Except.error "AttributeError"

/-- `utils.add_related_content`: dispatches on equality of the two
objects' velcro types. -/
def add_related_content (md : Metadata) (db : DB) (o1 o2 : Obj) :
    Except String (DB × Option (Nat × Bool)) :=
  let t1 := get_velcro_type md o1
  let t2 := get_velcro_type md o2
  if t1 = t2 then _add_or_remove_related_content_sametype db o1 o2 t1 t2 "add"
  else _add_or_remove_related_content_difftype db o1 o2 t1 t2 "add"

/-- `utils.remove_related_content`. -/
def remove_related_content (md : Metadata) (db : DB) (o1 o2 : Obj) :
    Except String (DB × Option (Nat × Bool)) :=
  let t1 := get_velcro_type md o1
  let t2 := get_velcro_type md o2
  if t1 = t2 then _add_or_remove_related_content_sametype db o1 o2 t1 t2 "remove"
  else _add_or_remove_related_content_difftype db o1 o2 t1 t2 "remove"

/-- The filter keyword dict of `utils._get_related_content_difftype`:
`'{velcro_type}_object_id'` and `'{velcro_type}_content_type'`. -/
def get_related_content_difftype_query (velcro_type : String) (object : Obj)
    (content_type : Val) : List (String × Val) :=
  [ (velcro_type ++ "_object_id", Val.num object.id),
    (velcro_type ++ "_content_type", content_type) ]

/-- The filter query of `utils._get_related_content_sametype`: the object
may sit on either side. -/
def get_related_content_sametype_query (object : Obj) (content_type : Val) : QExpr :=
  QExpr.qor
    (QExpr.kv [("content_type_1", content_type), ("object_id_1", Val.num object.id)])
    (QExpr.kv [("content_type_2", content_type), ("object_id_2", Val.num object.id)])

/-- The per-row result extraction of `utils._get_related_content_sametype`:
the endpoint opposite to the query object. -/
def sametypeOpposite (object : Obj) (endpoints : Obj × Obj) : Obj :=
  if endpoints.1 = object then endpoints.2 else endpoints.1

/-- The inline class name `'{}To{}RelationshipInline'`. -/
def relationshipInlineName (t1 t2 : String) : String :=
  pyCapitalize t1 ++ "To" ++ pyCapitalize t2 ++ "RelationshipInline"

/-- The reverse inline class name `'{}To{}RelationshipReverseInline'`. -/
def relationshipReverseInlineName (t1 t2 : String) : String :=
  pyCapitalize t1 ++ "To" ++ pyCapitalize t2 ++ "RelationshipReverseInline"

/-- `utils.get_relationship_inlines`, at the level of the inline class
names it imports and collects: one forward inline per related type, plus
the reverse inline when the related type equals the velcro type itself. -/
def get_relationship_inlines (md : Metadata) (rels : Relationships)
    (velcro_type : String) (related_types : List String) : List String :=
  let related := get_or_validate_related_types md rels velcro_type related_types
  related.flatMap fun r =>
    if velcro_type == r then
      [relationshipInlineName velcro_type r, relationshipReverseInlineName velcro_type r]
    else
      [relationshipInlineName velcro_type r]

/-! ## The ORM with Django's field-name resolution

Django resolves every keyword argument of `filter`/`get`/`get_or_create`
against the model's declared fields and raises `FieldError` for an
unknown name before touching any row; `Model.__init__` (hence
`objects.create(**params)`) raises `TypeError` for an unknown keyword.
`get_or_create` catches only `DoesNotExist` from its inner `get`, so a
`FieldError` propagates.  The database below stores, next to each
relationship table, the field names of its generated model class, and the
add/remove helpers of `utils.py` are evaluated once more over it with
this resolution in place. -/

/-- Whether every keyword of a query dict names a field of the model. -/
def kvKeysValid (fields : List String) (pairs : List (String × Val)) : Bool :=
  pairs.all fun p => fields.contains p.1

/-- Whether every keyword of a query expression names a field. -/
def qKeysValid (fields : List String) : QExpr → Bool
  | QExpr.kv pairs => kvKeysValid fields pairs
  | QExpr.qor a b => qKeysValid fields a && qKeysValid fields b

/-- A relationship database whose tables carry their model's declared
field names. -/
abbrev SchemaDB := List (String × (List String × Table))

/-- `apps.get_model` over the field-carrying database. -/
def sdbLookup (db : SchemaDB) (name : String) : Option (List String × Table) :=
  List.lookup name db

/-- Write a table back under its class name, keeping its field names. -/
def sdbSet : SchemaDB → String → Table → SchemaDB
  | [], name, t => [(name, ([], t))]
  | (n, ft) :: rest, name, t =>
      if n == name then (n, (ft.1, t)) :: rest else (n, ft) :: sdbSet rest name t

/-- `QuerySet.get` under field resolution: `FieldError` for an unknown
keyword, otherwise the first matching row, `none` standing for the
`DoesNotExist` raise. -/
def checkedGet (fields : List String) (t : Table) (q : QExpr) :
    Except String (Option (Nat × Row)) :=
  if qKeysValid fields q then Except.ok (tableGet t q) else Except.error "FieldError"

/-- `objects.create(**params)` under field resolution. -/
def checkedCreate (fields : List String) (t : Table) (params : Row) :
    Except String (Table × Nat) :=
  if kvKeysValid fields params then Except.ok (t ++ [(freshPk t, params)], freshPk t)
  else Except.error "TypeError"

/-- `objects.get_or_create(**pairs)` under field resolution: only the
inner `get`'s `DoesNotExist` is caught, a `FieldError` propagates. -/
def checkedGetOrCreate (fields : List String) (t : Table) (pairs : List (String × Val)) :
    Except String (Table × Nat × Bool) :=
  if kvKeysValid fields pairs then Except.ok (getOrCreate t pairs)
  else Except.error "FieldError"

/-- `utils._add_or_remove_related_content_difftype`, evaluated over the
field-resolving database; the control flow is the source's, only the
database operations now resolve their keyword names. -/
def _add_or_remove_related_content_difftype_resolved (db : SchemaDB) (o1 o2 : Obj)
    (t1 t2 : Option String) (add_or_remove : String) :
    Except String (SchemaDB × Option (Nat × Bool)) :=
  match t1, t2 with
  | some a, some b =>
      let cname := get_relationship_class_name a b
      (match sdbLookup db cname with
       | none => Except.error "LookupError"
       | some (fields, table) =>
          let query := _relationship_query o1 t1 o2 t2
          if add_or_remove == "add" then
            match checkedGetOrCreate fields table query with
            | Except.ok r => Except.ok (sdbSet db cname r.1, some r.2)
            | Except.error e => Except.error e
          else if add_or_remove == "remove" then
            match checkedGet fields table (QExpr.kv query) with
            | Except.ok (some (pk, _)) =>
                Except.ok (sdbSet db cname (tableDelete table pk), none)
            | Except.ok none => Except.error "DoesNotExist"
            | Except.error e => Except.error e
          else
            Except.ok (db, none))
  | _, _ => Except.error "AttributeError"

/-- `utils._add_or_remove_related_content_sametype`, evaluated over the
field-resolving database: the bare `except:` around `get` catches
`FieldError` and `DoesNotExist` alike and falls through to
`objects.create`, whose own `TypeError` is not caught. -/
def _add_or_remove_related_content_sametype_resolved (db : SchemaDB) (o1 o2 : Obj)
    (t1 t2 : Option String) (add_or_remove : String) :
    Except String (SchemaDB × Option (Nat × Bool)) :=
  if o1 = o2 then
    Except.error "ValueError"
  else
    match t1, t2 with
    | some a, some b =>
        let cname := get_relationship_class_name a b
        (match sdbLookup db cname with
         | none => Except.error "LookupError"
         | some (fields, table) =>
            let query := sametypeAddRemoveQuery o1 o2
            if add_or_remove == "add" then
              match checkedGet fields table query with
              | Except.ok (some (pk, _)) => Except.ok (db, some (pk, false))
              | _ =>
                  let params : Row :=
                    [("content_type_1", contentTypeOf o1), ("object_id_1", Val.num o1.id),
                     ("content_type_2", contentTypeOf o2), ("object_id_2", Val.num o2.id)]
                  (match checkedCreate fields table params with
                   | Except.ok r => Except.ok (sdbSet db cname r.1, some (r.2, true))
                   | Except.error e => Except.error e)
            else if add_or_remove == "remove" then
              match checkedGet fields table query with
              | Except.ok (some (pk, _)) =>
                  Except.ok (sdbSet db cname (tableDelete table pk), none)
              | Except.ok none => Except.error "DoesNotExist"
              | Except.error e => Except.error e
            else
              Except.ok (db, none))
    | _, _ => Except.error "AttributeError"

/-- `utils.add_related_content` over the field-resolving database. -/
def add_related_content_resolved (md : Metadata) (db : SchemaDB) (o1 o2 : Obj) :
    Except String (SchemaDB × Option (Nat × Bool)) :=
  let t1 := get_velcro_type md o1
  let t2 := get_velcro_type md o2
  if t1 = t2 then _add_or_remove_related_content_sametype_resolved db o1 o2 t1 t2 "add"
  else _add_or_remove_related_content_difftype_resolved db o1 o2 t1 t2 "add"

/-- `utils.remove_related_content` over the field-resolving database. -/
def remove_related_content_resolved (md : Metadata) (db : SchemaDB) (o1 o2 : Obj) :
    Except String (SchemaDB × Option (Nat × Bool)) :=
  let t1 := get_velcro_type md o1
  let t2 := get_velcro_type md o2
  if t1 = t2 then _add_or_remove_related_content_sametype_resolved db o1 o2 t1 t2 "remove"
  else _add_or_remove_related_content_difftype_resolved db o1 o2 t1 t2 "remove"

/-! ## `models.py` -/

/-- A Django model field, as instantiated by `models.py`.  Every generated
field uses Django's default `unique=False`; the source passes no `unique`
keyword anywhere. -/
inductive FieldSpec where
  | contentTypeFK (limit : List (String × String)) (related_name : String) (unique : Bool)
  | positiveInteger (unique : Bool)
  | genericFK (ct_field : String) (fk_field : String)
  | charField (max_length : Nat) (blank : Bool) (unique : Bool)
deriving DecidableEq

/-- The `limit_choices_to` disjunction built from a velcro type's
`'apps'` metadata: one `(app_label, model)` pair per entry, both
lowercased.  (The source indexes `VELCRO_METADATA[velcro_type]` directly,
raising `KeyError` for an unknown type; theorems only apply this to
configured types.) -/
def limitFor (md : Metadata) (velcro_type : String) : List (String × String) :=
  ((List.lookup velcro_type md).map fun tm =>
    tm.apps.map fun mm => (pyLower mm.app_label, pyLower mm.model)).getD []

/-- A generated relationship model class: its name, its concrete fields
(in declaration order), its `Meta.ordering`, and the uniqueness
constraints declared in its `Meta` (`unique_together` or
`UniqueConstraint` entries — the source declares none). -/
structure GenModel where
  name : String
  fields : List (String × FieldSpec)
  meta_ordering : List String
  unique_constraints : List (List String)
deriving DecidableEq

/-- The field names of a generated model. -/
def fieldNames (m : GenModel) : List String := m.fields.map Prod.fst

/-- The typedict fields added by
`models._generate_relationship_model_difftype`'s loop
`for velcro_type in relationship`: per type a `ContentType` foreign key, a
`PositiveIntegerField` named `'{velcro_type}_object_pk'`, and a
`GenericForeignKey` combining the two. -/
def difftypeFields (md : Metadata) (relationship : String × String) :
    List (String × FieldSpec) :=
  [relationship.1, relationship.2].flatMap fun vt =>
    [ (vt ++ "_content_type",
        FieldSpec.contentTypeFK (limitFor md vt)
          ("%(app_label)s_%(class)s_related_" ++ vt) false),
      (vt ++ "_object_pk", FieldSpec.positiveInteger false),
      (vt ++ "_content_object",
        FieldSpec.genericFK (vt ++ "_content_type") (vt ++ "_object_pk")) ]

/-- The base-class fields of
`models._generate_relationship_model_sametype`: endpoint fields carry the
suffixes `_1` and `_2` rather than velcro-type prefixes. -/
def sametypeBaseFields (md : Metadata) (velcro_type : String) :
    List (String × FieldSpec) :=
  [ ("content_type_1",
      FieldSpec.contentTypeFK (limitFor md velcro_type)
        "%(app_label)s_%(class)s_related_1" false),
    ("object_pk_1", FieldSpec.positiveInteger false),
    ("content_object_1", FieldSpec.genericFK "content_type_1" "object_pk_1"),
    ("content_type_2",
      FieldSpec.contentTypeFK (limitFor md velcro_type)
        "%(app_label)s_%(class)s_related_2" false),
    ("object_pk_2", FieldSpec.positiveInteger false),
    ("content_object_2", FieldSpec.genericFK "content_type_2" "object_pk_2") ]

/-- `models.generate_relationship_model`: the class named
`'{}{}Relationship'` from the sorted, capitalized velcro types, with the
`order_by` char field from the initial typedict, the endpoint fields of
the matching- or differing-type base, `Meta.ordering = ['order_by']`, and
no declared uniqueness constraint. -/
def generate_relationship_model (md : Metadata) (relationship : String × String) : GenModel :=
  let s := sortPairStr relationship.1 relationship.2
  let klass_name := pyCapitalize s.1 ++ pyCapitalize s.2 ++ "Relationship"
  if s.1 == s.2 then
    ⟨klass_name,
     sametypeBaseFields md s.1 ++ [("order_by", FieldSpec.charField 255 true false)],
     ["order_by"], []⟩
  else
    ⟨klass_name,
     ("order_by", FieldSpec.charField 255 true false) :: difftypeFields md relationship,
     ["order_by"], []⟩

/-- `models._startup`: every relationship tuple's generated model is
installed in the module's globals under its class name. -/
def models_globals (md : Metadata) (rels : Relationships) : List (String × GenModel) :=
  rels.map fun r => ((generate_relationship_model md r).name, generate_relationship_model md r)

/-- A relationship model instance about to be saved: optional primary key,
the two endpoint values, and the value `self.__str__()` renders to (it
depends on the referenced objects, so it is taken as an input). -/
structure RelInstance where
  pk : Option Nat
  ct1 : Val
  opk1 : Nat
  ct2 : Val
  opk2 : Nat
  str_repr : String
deriving DecidableEq

/-- Django's `Model.save` (the `super().save(*args, **kwargs)` call): with
a primary key set it updates the row of that key, inserting when the key
is absent; with no primary key it inserts under a fresh key. -/
def superSave (table : Table) (pk : Option Nat) (row : Row) : Table × Nat :=
  match pk with
  | some p =>
      if (List.lookup p table).isSome then
        (table.map fun e => if e.1 == p then (p, row) else e, p)
      else
        (table ++ [(p, row)], p)
  | none => (table ++ [(freshPk table, row)], freshPk table)

/-- The deduplication query of the differing-type `save`: the instance's
own endpoint values under the model's `'{type}_content_type'` /
`'{type}_object_pk'` field names (`t1`, `t2` are the sorted velcro types;
`ct1`/`opk1` are the `t1`-side values). -/
def difftypeSaveQuery (t1 t2 : String) (self : RelInstance) : List (String × Val) :=
  [ (t1 ++ "_content_type", self.ct1),
    (t1 ++ "_object_pk", Val.num self.opk1),
    (t2 ++ "_content_type", self.ct2),
    (t2 ++ "_object_pk", Val.num self.opk2) ]

/-- The row a differing-type instance persists. -/
def difftypeRowOf (t1 t2 : String) (self : RelInstance) : Row :=
  difftypeSaveQuery t1 t2 self ++ [("order_by", Val.str self.str_repr)]

/-- The `save` of `models._generate_relationship_model_difftype`'s base:
a single `get` inside `try` adopts the existing row's primary key; any
exception is swallowed by `except: pass`; then `order_by` is set and
`super().save` runs. -/
def difftype_save (t1 t2 : String) (table : Table) (self : RelInstance) : Table × Nat :=
  let query := difftypeSaveQuery t1 t2 self
  let pk : Option Nat :=
    match tableGet table (QExpr.kv query) with
    | some (p, _) => some p
    | none => self.pk
  superSave table pk (difftypeRowOf t1 t2 self)

/-- The deduplication query of the matching-type `save`: the instance's
endpoint values in either orientation, under the model's
`content_type_1/2` / `object_pk_1/2` field names. -/
def sametypeSaveQuery (self : RelInstance) : QExpr :=
  QExpr.qor
    (QExpr.kv [("content_type_1", self.ct1), ("object_pk_1", Val.num self.opk1),
               ("content_type_2", self.ct2), ("object_pk_2", Val.num self.opk2)])
    (QExpr.kv [("content_type_1", self.ct2), ("object_pk_1", Val.num self.opk2),
               ("content_type_2", self.ct1), ("object_pk_2", Val.num self.opk1)])

/-- The row a matching-type instance persists. -/
def sametypeRowOf (self : RelInstance) : Row :=
  [ ("content_type_1", self.ct1), ("object_pk_1", Val.num self.opk1),
    ("content_type_2", self.ct2), ("object_pk_2", Val.num self.opk2),
    ("order_by", Val.str self.str_repr) ]

/-- The `save` of `models._generate_relationship_model_sametype`'s base:
like the differing-type `save` but with the symmetric query, and when the
two endpoints coincide nothing is persisted (a message is printed
instead of calling `super().save`). -/
def sametype_save (table : Table) (self : RelInstance) : Table × Option Nat :=
  let pk : Option Nat :=
    match tableGet table (sametypeSaveQuery self) with
    | some (p, _) => some p
    | none => self.pk
  if self.ct1 == self.ct2 && self.opk1 == self.opk2 then
    (table, none)
  else
    let r := superSave table pk (sametypeRowOf self)
    (r.1, some r.2)

/-! ## `admin.py` -/

/-- The settings read by `admin.py` (`settings.py` defaults:
`VELCRO_INLINES = True`, `VELCRO_INLINES_EXTRA = 3`,
`VELCRO_INLINES_MAX_NUM = None`, `VELCRO_INLINES_TABULAR = True`;
`VELCRO_GENERICADMIN` is imported by `admin.py` though `settings.py`
provides no default for it). -/
structure Settings where
  VELCRO_INLINES : Bool
  VELCRO_INLINES_EXTRA : Nat
  VELCRO_INLINES_MAX_NUM : Option Nat
  VELCRO_INLINES_TABULAR : Bool
  VELCRO_GENERICADMIN : Bool
deriving DecidableEq

/-- `utils.plural_velcro_type`: the `'verbose_name_plural'` option, or the
velcro type with `'s'` appended. -/
def plural_velcro_type (md : Metadata) (velcro_type : String) : String :=
  ((List.lookup velcro_type md).bind fun tm => tm.options.verbose_name_plural).getD
    (velcro_type ++ "s")

/-- `utils.singular_velcro_type`: the `'verbose_name'` option, or the
velcro type itself. -/
def singular_velcro_type (md : Metadata) (velcro_type : String) : String :=
  ((List.lookup velcro_type md).bind fun tm => tm.options.verbose_name).getD velcro_type

/-- An inline editor class generated by `admin.generate_inline_model`. -/
structure InlineSpec where
  model : String
  max_num : Option Nat
  verbose_name : String
  ct_field : String
  ct_fk_field : String
  extra : Nat
  fields : List String
  ordering : List String
  verbose_name_plural : String
  tabular : Bool
deriving DecidableEq

/-- `admin.generate_inline_model`: the class name and attributes of the
inline generated for a relationship tuple, forward (`rev = false`) or
reverse (`rev = true`). -/
def generate_inline_model (md : Metadata) (st : Settings)
    (relationship : String × String) (rev : Bool) : String × InlineSpec :=
  let s0 := sortPairStr relationship.1 relationship.2
  let s := if rev then (s0.2, s0.1) else s0
  let o1 := s.1
  let o2 := s.2
  let klass_name := relationshipInlineName o1 o2
  let model_name := get_relationship_class_name relationship.1 relationship.2
  let verbose_name := pyTitle ("Related " ++ singular_velcro_type md o2)
  if o1 == o2 then
    if rev then
      (relationshipReverseInlineName o1 o2,
       ⟨model_name, st.VELCRO_INLINES_MAX_NUM, verbose_name,
        "content_type_2", "object_id_2", 0,
        ["content_type_1", "object_id_1"], ["order_by"],
        pyTitle ("Related " ++ plural_velcro_type md o1 ++ " (Reverse)"),
        st.VELCRO_INLINES_TABULAR⟩)
    else
      (klass_name,
       ⟨model_name, st.VELCRO_INLINES_MAX_NUM, verbose_name,
        "content_type_1", "object_id_1", st.VELCRO_INLINES_EXTRA,
        ["content_type_2", "object_id_2"], ["order_by"],
        pyTitle ("Related " ++ plural_velcro_type md o2 ++ " (Forward)"),
        st.VELCRO_INLINES_TABULAR⟩)
  else
    (klass_name,
     ⟨model_name, st.VELCRO_INLINES_MAX_NUM, verbose_name,
      o1 ++ "_content_type", o1 ++ "_object_id", st.VELCRO_INLINES_EXTRA,
      [o2 ++ "_content_type", o2 ++ "_object_id"],
      [o2 ++ "_content_type", "order_by"],
      pyTitle ("Related " ++ plural_velcro_type md o2),
      st.VELCRO_INLINES_TABULAR⟩)

/-- A key of the admin registry: a third-party model (by app label and
model name) or a generated relationship model (by class name). -/
inductive AdminKey where
  | thirdParty (app_label : String) (model : String)
  | relationship (name : String)
deriving DecidableEq

/-- A registered admin class: its class name, whether it inherits
`GenericAdminModelAdmin`, its read-only fields, and the names of its
inline classes. -/
structure AdminEntry where
  class_name : String
  generic_admin : Bool
  readonly_fields : List String
  inlines : List String
deriving DecidableEq

/-- The admin registry, `admin.site._registry`. -/
abbrev AdminSite := List (AdminKey × AdminEntry)

/-- `admin.site.register` (preceded by `unregister` when re-registering):
replace an existing entry or append a new one. -/
def siteRegister : AdminSite → AdminKey → AdminEntry → AdminSite
  | [], k, e => [(k, e)]
  | (k0, e0) :: rest, k, e =>
      if k0 = k then (k0, e) :: rest else (k0, e0) :: siteRegister rest k e

/-- Lookup in the admin registry. -/
def siteLookup (site : AdminSite) (k : AdminKey) : Option AdminEntry :=
  List.lookup k site

/-- `admin.generate_and_register_admin_model`: the
`'{A}{B}RelationshipAdmin'` class (a `GenericAdminModelAdmin` with
`readonly_fields = ['order_by']`) registered for the relationship model. -/
def generate_and_register_admin_model (site : AdminSite)
    (relationship : String × String) : AdminSite :=
  let s := sortPairStr relationship.1 relationship.2
  let model_name := pyCapitalize s.1 ++ pyCapitalize s.2 ++ "Relationship"
  siteRegister site (AdminKey.relationship model_name)
    ⟨model_name ++ "Admin", true, ["order_by"], []⟩

/-- `admin.add_velcro_to_third_party_admin`: the registered admin of the
model is replaced by a subclass keeping its name and read-only fields,
inheriting `GenericAdminModelAdmin` when `VELCRO_GENERICADMIN` is set, and
with the relationship inlines for the velcro type appended to its inlines
when `VELCRO_INLINES` is set.  (The source reads
`admin.site._registry[model]`; an unregistered model is modelled as an
admin with no inlines.) -/
def add_velcro_to_third_party_admin (md : Metadata) (rels : Relationships)
    (st : Settings) (site : AdminSite) (app_name model_name velcro_type : String) :
    AdminSite :=
  let key := AdminKey.thirdParty app_name model_name
  let orig := (siteLookup site key).getD ⟨"", false, [], []⟩
  let generic := st.VELCRO_GENERICADMIN || orig.generic_admin
  let inlines :=
    if st.VELCRO_INLINES then
      orig.inlines ++ get_relationship_inlines md rels velcro_type []
    else
      orig.inlines
  siteRegister site key ⟨orig.class_name, generic, orig.readonly_fields, inlines⟩

/-- The first loop of `admin._startup`: per relationship, the forward and
reverse inline classes are generated into the module globals (when
`VELCRO_INLINES` is set) and the relationship admin is registered.  Later
definitions shadow earlier ones in the globals, so new entries are placed
at the front. -/
def adminStartupPhase1 (md : Metadata) (st : Settings) :
    Relationships → (List (String × InlineSpec) × AdminSite) →
    List (String × InlineSpec) × AdminSite
  | [], acc => acc
  | r :: rest, acc =>
      let globals1 :=
        if st.VELCRO_INLINES then
          generate_inline_model md st r true :: generate_inline_model md st r false :: acc.1
        else
          acc.1
      adminStartupPhase1 md st rest (globals1, generate_and_register_admin_model acc.2 r)

/-- The second loop of `admin._startup`: every model listed in
`VELCRO_METADATA` (in dict order) has its admin updated. -/
def adminStartupPhase2 (md : Metadata) (rels : Relationships) (st : Settings) :
    List (String × TypeMeta) → AdminSite → AdminSite
  | [], site => site
  | (vt, tm) :: rest, site =>
      adminStartupPhase2 md rels st rest
        (tm.apps.foldl
          (fun s mm => add_velcro_to_third_party_admin md rels st s mm.app_label mm.model vt)
          site)

/-- `admin._startup`: the generated inline globals and the final admin
registry, starting from the pre-existing third-party registry. -/
def admin_startup (md : Metadata) (rels : Relationships) (st : Settings)
    (origSite : AdminSite) : List (String × InlineSpec) × AdminSite :=
  let p1 := adminStartupPhase1 md st rels ([], origSite)
  (p1.1, adminStartupPhase2 md rels st md p1.2)

/-! ## Example configuration

The configuration from the `models.generate_relationship_model`
docstring (`'data'` and `'publication'` velcro types), extended with a
reflexive `'scientist'` type, used for witnesses and counterexamples. -/

/-- The `'data'` velcro type metadata from the docstring example. -/
def dataMeta : TypeMeta :=
  ⟨[⟨"data", "Data", "data:data-detail", ["pk"]⟩,
    ⟨"data", "DataSet", "data:dataset-detail", ["pk"]⟩],
   ⟨some "data", some "data"⟩⟩

/-- The `'publication'` velcro type metadata from the docstring example. -/
def publicationMeta : TypeMeta :=
  ⟨[⟨"publication", "Publication", "publications:publication-detail", ["pk"]⟩,
    ⟨"publication", "PublicationSet", "publications:publicationset-detail", ["pk"]⟩],
   ⟨some "publication", some "publications"⟩⟩

/-- A reflexive `'scientist'` velcro type. -/
def scientistMeta : TypeMeta :=
  ⟨[⟨"scientist", "Scientist", "scientists:scientist-detail", ["pk"]⟩],
   ⟨some "scientist", some "scientists"⟩⟩

/-- An example `VELCRO_METADATA`. -/
def exampleMd : Metadata :=
  [("data", dataMeta), ("publication", publicationMeta), ("scientist", scientistMeta)]

/-- An example `VELCRO_RELATIONSHIPS` with one differing-type and one
reflexive relationship. -/
def exampleRels : Relationships :=
  [("data", "publication"), ("scientist", "scientist")]

/-- The default settings of `settings.py` (with `VELCRO_GENERICADMIN`
taken as `True`). -/
def defaultSettings : Settings := ⟨true, 3, none, true, true⟩

/-- An example `Data` instance. -/
def aData : Obj := ⟨"data", "Data", 1⟩

/-- An example `Publication` instance. -/
def aPublication : Obj := ⟨"publication", "Publication", 2⟩

/-- Two example `Scientist` instances. -/
def aScientist : Obj := ⟨"scientist", "Scientist", 3⟩

/-- A second example `Scientist` instance. -/
def bScientist : Obj := ⟨"scientist", "Scientist", 4⟩

/-- An example relationship database with the two generated relationship
classes installed and no rows. -/
def exampleDb : DB :=
  [("DataPublicationRelationship", []), ("ScientistScientistRelationship", [])]

/-- Whether a field carries a `unique=True` flag. -/
def fieldUnique : FieldSpec → Bool
  | FieldSpec.contentTypeFK _ _ u => u
  | FieldSpec.positiveInteger u => u
  | FieldSpec.genericFK _ _ => false
  | FieldSpec.charField _ _ u => u

/-- Whether a generated model declares any ORM-level uniqueness: a
`Meta`-level constraint over field tuples, or a `unique=True` field. -/
def modelDeclaresUniqueness (m : GenModel) : Bool :=
  !(m.unique_constraints.isEmpty) || m.fields.any fun f => fieldUnique f.2

/-- A reflexive relationship instance whose two endpoints coincide. -/
def c4Self : RelInstance := ⟨none, Val.ct "data" "data", 1, Val.ct "data" "data", 1, "x"⟩

/-- An example field-resolving database: the two generated relationship
classes, each carrying the field names of its generated model, with no
rows. -/
def exampleSchemaDb : SchemaDB :=
  [("DataPublicationRelationship",
    (fieldNames (generate_relationship_model exampleMd ("data", "publication")), [])),
   ("ScientistScientistRelationship",
    (fieldNames (generate_relationship_model exampleMd ("scientist", "scientist")), []))]

/-! ## Order lemmas for the string comparison -/

theorem charListLe_total : ∀ a b : List Char, charListLe a b = true ∨ charListLe b a = true := by
  intro a
  induction a with
  | nil => intro b; exact Or.inl rfl
  | cons c cs ih =>
    intro b
    cases b with
    | nil => exact Or.inr rfl
    | cons d ds =>
      rcases Nat.lt_trichotomy c.toNat d.toNat with h | h | h
      · left; simp [charListLe, h]
      · rcases ih ds with h2 | h2
        · left; simp [charListLe, h, h2]
        · right; simp [charListLe, h, h2]
      · right; simp [charListLe, h]

theorem charListLe_trans : ∀ a b c : List Char,
    charListLe a b = true → charListLe b c = true → charListLe a c = true := by
  intro a
  induction a with
  | nil => intro b c _ _; rfl
  | cons x xs ih =>
    intro b c hab hbc
    cases b with
    | nil => simp [charListLe] at hab
    | cons y ys =>
      cases c with
      | nil => simp [charListLe] at hbc
      | cons z zs =>
        simp only [charListLe] at hab hbc ⊢
        rcases Nat.lt_trichotomy x.toNat y.toNat with h1 | h1 | h1 <;>
          rcases Nat.lt_trichotomy y.toNat z.toNat with h2 | h2 | h2
        · simp [Nat.lt_trans h1 h2]
        · simp [h2 ▸ h1]
        · simp [h2, Nat.lt_asymm h2] at hbc
        · simp [h1 ▸ h2]
        · have hxz : x.toNat = z.toNat := h1.trans h2
          simp [h1, Nat.lt_irrefl] at hab
          simp [h2, Nat.lt_irrefl] at hbc
          simp [hxz, Nat.lt_irrefl, ih ys zs hab hbc]
        · simp [h2, Nat.lt_asymm h2] at hbc
        · simp [h1, Nat.lt_asymm h1] at hab
        · simp [h1, Nat.lt_asymm h1] at hab
        · simp [h1, Nat.lt_asymm h1] at hab

theorem charListLe_antisymm : ∀ a b : List Char,
    charListLe a b = true → charListLe b a = true → a = b := by
  intro a
  induction a with
  | nil =>
    intro b _ hba
    cases b with
    | nil => rfl
    | cons d ds => simp [charListLe] at hba
  | cons c cs ih =>
    intro b hab hba
    cases b with
    | nil => simp [charListLe] at hab
    | cons d ds =>
      simp only [charListLe] at hab hba
      rcases Nat.lt_trichotomy c.toNat d.toNat with h | h | h
      · simp [h, Nat.lt_asymm h] at hba
      · have hcd : c = d := Char.eq_of_val_eq (UInt32.ext h)
        subst hcd
        simp [Nat.lt_irrefl] at hab hba
        rw [ih ds hab hba]
      · simp [h, Nat.lt_asymm h] at hab

theorem strLe_total (a b : String) : strLe a b = true ∨ strLe b a = true :=
  charListLe_total a.data b.data

theorem strLe_trans {a b c : String} (h1 : strLe a b = true) (h2 : strLe b c = true) :
    strLe a c = true :=
  charListLe_trans a.data b.data c.data h1 h2

theorem strLe_antisymm {a b : String} (h1 : strLe a b = true) (h2 : strLe b a = true) :
    a = b :=
  String.ext (charListLe_antisymm a.data b.data h1 h2)

instance : IsTotal String (fun a b => strLe a b = true) := ⟨strLe_total⟩

instance : IsTrans String (fun a b => strLe a b = true) := ⟨fun _ _ _ => strLe_trans⟩

theorem sortPairStr_comm (a b : String) : sortPairStr a b = sortPairStr b a := by
  unfold sortPairStr
  rcases hab : strLe a b with _ | _ <;> rcases hba : strLe b a with _ | _ <;> simp
  · rcases strLe_total a b with h | h
    · rw [hab] at h; exact absurd h (by simp)
    · rw [hba] at h; exact absurd h (by simp)
  · have h := strLe_antisymm hab hba
    exact ⟨h, h.symm⟩

/-- The components of `sortPairStr` are equal iff the inputs are. -/
theorem sortPairStr_fst_eq_snd_iff (a b : String) :
    ((sortPairStr a b).1 = (sortPairStr a b).2) ↔ a = b := by
  unfold sortPairStr
  rcases hab : strLe a b with _ | _ <;> simp
  exact ⟨fun h => h.symm, fun h => h.symm⟩

/-! ## List lemmas -/

theorem find?_congr {α : Type _} (p q : α → Bool) (h : ∀ a, p a = q a) :
    ∀ l : List α, l.find? p = l.find? q := by
  intro l
  induction l with
  | nil => rfl
  | cons x xs ih => simp only [List.find?]; rw [h x, ih]

theorem lookup_eq_of_mem_nodup {β : Type _} :
    ∀ (l : List (String × β)) (k : String) (v : β),
      (l.map Prod.fst).Nodup → (k, v) ∈ l → List.lookup k l = some v := by
  intro l
  induction l with
  | nil => intro k v _ hm; simp at hm
  | cons e es ih =>
    intro k v hn hm
    simp only [List.map_cons, List.nodup_cons] at hn
    rcases List.mem_cons.mp hm with h | h
    · rw [← h]; simp [List.lookup]
    · have hk : k ≠ e.1 := by
        intro hke
        exact hn.1 (hke ▸ List.mem_map_of_mem Prod.fst h)
      have hbeq : (k == e.1) = false := beq_eq_false_iff_ne.mpr hk
      simp only [List.lookup, hbeq]
      exact ih k v hn.2 h

theorem lookup_isSome_of_mem {β : Type _} :
    ∀ (l : List (String × β)) (k : String) (v : β),
      (k, v) ∈ l → (List.lookup k l).isSome := by
  intro l
  induction l with
  | nil => intro k v hm; simp at hm
  | cons e es ih =>
    intro k v hm
    rcases List.mem_cons.mp hm with h | h
    · rw [← h]; simp [List.lookup]
    · by_cases hk : k = e.1
      · simp [List.lookup, hk]
      · have hbeq : (k == e.1) = false := beq_eq_false_iff_ne.mpr hk
        simp only [List.lookup, hbeq]
        exact ih k v h

theorem natLookup_isSome_of_mem {β : Type _} :
    ∀ (l : List (Nat × β)) (k : Nat) (v : β),
      (k, v) ∈ l → (List.lookup k l).isSome := by
  intro l
  induction l with
  | nil => intro k v hm; simp at hm
  | cons e es ih =>
    intro k v hm
    rcases List.mem_cons.mp hm with h | h
    · rw [← h]; simp [List.lookup]
    · by_cases hk : k = e.1
      · simp [List.lookup, hk]
      · have hbeq : (k == e.1) = false := beq_eq_false_iff_ne.mpr hk
        simp only [List.lookup, hbeq]
        exact ih k v h

/-! ## String append lemmas (distinctness of generated field names) -/

theorem str_append_right_cancel {a b s : String} (h : a ++ s = b ++ s) : a = b := by
  apply String.ext
  have hd := congrArg String.data h
  simp only [String.data_append] at hd
  exact List.append_cancel_right hd

theorem str_append_left_cancel {a s t : String} (h : a ++ s = a ++ t) : s = t := by
  apply String.ext
  have hd := congrArg String.data h
  simp only [String.data_append] at hd
  exact List.append_cancel_left hd

theorem str_append_ne_of_last_ne (a b s t : String) (c d : Char)
    (hs : s.data.getLast? = some c) (ht : t.data.getLast? = some d) (hcd : c ≠ d) :
    a ++ s ≠ b ++ t := by
  intro he
  have hd := congrArg String.data he
  simp only [String.data_append] at hd
  have h1 : (a.data ++ s.data).getLast? = some c := by
    rw [List.getLast?_append, hs]; rfl
  have h2 : (b.data ++ t.data).getLast? = some d := by
    rw [List.getLast?_append, ht]; rfl
  rw [hd, h2] at h1
  exact hcd (Option.some.inj h1).symm

/-! ## Database and registry lemmas -/

theorem dbLookup_dbSet_self : ∀ (db : DB) (n : String) (t : Table),
    dbLookup (dbSet db n t) n = some t := by
  intro db
  induction db with
  | nil => intro n t; simp [dbSet, dbLookup, List.lookup]
  | cons e es ih =>
    intro n t
    rcases hbeq : (e.1 == n) with _ | _
    · have hne : n ≠ e.1 := fun h => by simp [h] at hbeq
      have hbeq2 : (n == e.1) = false := beq_eq_false_iff_ne.mpr hne
      rcases e with ⟨n0, t0⟩
      simp only [dbSet, hbeq, Bool.false_eq_true, if_false, dbLookup, List.lookup, hbeq2]
      exact ih n t
    · rcases e with ⟨n0, t0⟩
      have he : n0 = n := by simpa using hbeq
      simp [dbSet, hbeq, dbLookup, List.lookup, he]

theorem dbSet_self : ∀ (db : DB) (n : String) (t : Table),
    dbLookup db n = some t → dbSet db n t = db := by
  intro db
  induction db with
  | nil => intro n t h; simp [dbLookup, List.lookup] at h
  | cons e es ih =>
    intro n t h
    rcases e with ⟨n0, t0⟩
    rcases hbeq : (n0 == n) with _ | _
    · have hne : n ≠ n0 := fun hh => by simp [hh] at hbeq
      have hbeq2 : (n == n0) = false := beq_eq_false_iff_ne.mpr hne
      simp only [dbLookup, List.lookup, hbeq2] at h
      simp only [dbSet, hbeq, Bool.false_eq_true, if_false, List.cons.injEq, true_and]
      exact ih n t h
    · have he : n0 = n := by simpa using hbeq
      subst he
      simp only [dbLookup, List.lookup, beq_self_eq_true] at h
      simp [dbSet, (Option.some.inj h).symm]

theorem siteLookup_siteRegister_self : ∀ (site : AdminSite) (k : AdminKey) (e : AdminEntry),
    siteLookup (siteRegister site k e) k = some e := by
  intro site
  induction site with
  | nil => intro k e; simp [siteRegister, siteLookup, List.lookup]
  | cons x xs ih =>
    intro k e
    rcases x with ⟨k0, e0⟩
    by_cases hk : k0 = k
    · simp [siteRegister, hk, siteLookup, List.lookup]
    · have hbeq : (k == k0) = false := beq_eq_false_iff_ne.mpr (Ne.symm hk)
      simp only [siteRegister, hk, if_false, siteLookup, List.lookup, hbeq]
      exact ih k e

theorem siteLookup_siteRegister_ne : ∀ (site : AdminSite) (k k' : AdminKey) (e : AdminEntry),
    k' ≠ k → siteLookup (siteRegister site k e) k' = siteLookup site k' := by
  intro site
  induction site with
  | nil =>
    intro k k' e hne
    have hbeq : (k' == k) = false := beq_eq_false_iff_ne.mpr hne
    simp [siteRegister, siteLookup, List.lookup, hbeq]
  | cons x xs ih =>
    intro k k' e hne
    rcases x with ⟨k0, e0⟩
    by_cases hk : k0 = k
    · subst hk
      have hbeq : (k' == k0) = false := beq_eq_false_iff_ne.mpr hne
      simp [siteRegister, siteLookup, List.lookup, hbeq]
    · simp only [siteRegister, hk, if_false, siteLookup, List.lookup]
      rcases hbeq : (k' == k0) with _ | _
      · exact ih k k' e hne
      · rfl

/-! ## Query-matching lemmas -/

theorem list_all_eq_true {α : Type _} (p : α → Bool) (l : List α) :
    l.all p = true ↔ ∀ a ∈ l, p a = true := List.all_eq_true

theorem kvMatches_self (pairs : List (String × Val))
    (h : (pairs.map Prod.fst).Nodup) : kvMatches pairs pairs = true := by
  apply List.all_eq_true.mpr
  intro p hp
  have hl : List.lookup p.1 pairs = some p.2 :=
    lookup_eq_of_mem_nodup pairs p.1 p.2 h hp
  simp [rowGet, hl]

theorem kvMatches_relationship_query_swap (row : Row) (o1 o2 : Obj)
    (t1 t2 : Option String) :
    kvMatches row (_relationship_query o1 t1 o2 t2)
      = kvMatches row (_relationship_query o2 t2 o1 t1) := by
  refine Bool.eq_iff_iff.mpr ?_
  simp only [kvMatches, _relationship_query, List.all_cons, List.all_nil,
    Bool.and_eq_true, Bool.and_true]
  tauto

theorem qMatches_sametype_swap (row : Row) (o1 o2 : Obj) :
    qMatches row (sametypeAddRemoveQuery o1 o2)
      = qMatches row (sametypeAddRemoveQuery o2 o1) := by
  simp only [qMatches, sametypeAddRemoveQuery]
  exact Bool.or_comm _ _

theorem tableGet_relationship_query_swap (t : Table) (o1 o2 : Obj)
    (t1 t2 : Option String) :
    tableGet t (QExpr.kv (_relationship_query o1 t1 o2 t2))
      = tableGet t (QExpr.kv (_relationship_query o2 t2 o1 t1)) :=
  find?_congr _ _
    (fun e => by simp only [qMatches, kvMatches_relationship_query_swap e.2 o1 o2 t1 t2]) t

theorem tableGet_sametype_swap (t : Table) (o1 o2 : Obj) :
    tableGet t (sametypeAddRemoveQuery o1 o2)
      = tableGet t (sametypeAddRemoveQuery o2 o1) := by
  unfold tableGet
  exact find?_congr _ _ (fun e => qMatches_sametype_swap e.2 o1 o2) t

/-- The four field names of a differing-type relationship query are
pairwise distinct when the two velcro types differ. -/
theorem relationship_query_keys_nodup (o1 o2 : Obj) (t1 t2 : String) (h : t1 ≠ t2) :
    ((_relationship_query o1 (some t1) o2 (some t2)).map Prod.fst).Nodup := by
  have n12 : t1 ++ "_content_type" ≠ t1 ++ "_object_id" := fun he =>
    absurd (str_append_left_cancel he) (by decide)
  have n13 : t1 ++ "_content_type" ≠ t2 ++ "_content_type" := fun he =>
    h (str_append_right_cancel he)
  have n14 : t1 ++ "_content_type" ≠ t2 ++ "_object_id" :=
    str_append_ne_of_last_ne t1 t2 "_content_type" "_object_id" 'e' 'd'
      (by decide) (by decide) (by decide)
  have n23 : t1 ++ "_object_id" ≠ t2 ++ "_content_type" :=
    str_append_ne_of_last_ne t1 t2 "_object_id" "_content_type" 'd' 'e'
      (by decide) (by decide) (by decide)
  have n24 : t1 ++ "_object_id" ≠ t2 ++ "_object_id" := fun he =>
    h (str_append_right_cancel he)
  have n34 : t2 ++ "_content_type" ≠ t2 ++ "_object_id" := fun he =>
    absurd (str_append_left_cancel he) (by decide)
  simp [_relationship_query, pyFmt, List.nodup_cons, n12, n13, n14, n23, n24, n34,
    Ne.symm n12, Ne.symm n13, Ne.symm n14, Ne.symm n23, Ne.symm n24, Ne.symm n34]

/-! ## Further helper lemmas -/

theorem charListLe_refl : ∀ a : List Char, charListLe a a = true := by
  intro a
  induction a with
  | nil => rfl
  | cons c cs ih => simp [charListLe, Nat.lt_irrefl, ih]

theorem strLe_refl (a : String) : strLe a a = true := charListLe_refl a.data

theorem sortPairStr_self (a : String) : sortPairStr a a = (a, a) := by
  simp [sortPairStr, strLe_refl]

theorem superSave_replace (table : Table) (p : Nat) (row : Row)
    (h : (List.lookup p table).isSome) :
    (superSave table (some p) row).2 = p
    ∧ (superSave table (some p) row).1.map Prod.fst = table.map Prod.fst := by
  constructor
  · simp [superSave, h]
  · simp only [superSave, h, if_true]
    rw [List.map_map]
    apply List.map_congr_left
    intro e _
    rcases hbeq : (e.1 == p) with _ | _
    · have hne : e.1 ≠ p := by simpa using hbeq
      simp [hne]
    · have heq : e.1 = p := by simpa using hbeq
      simp [heq]

/-! ## Claim C1 -/

/-- C1: the spec claims the query helpers filter the generated junction
models by field names those models actually define.  Evaluated on the
docstring configuration, the differing-type helper filters
`DataPublicationRelationship` by `'data_object_id'` while the generated
model defines `'data_object_pk'`, and the matching-type helper filters
`ScientistScientistRelationship` by `'object_id_1/2'` while the model
defines `'object_pk_1/2'`: the claimed field-name agreement fails (the
content-type keys do agree). -/
theorem C1_filter_keys_not_model_fields :
    ¬ ((get_related_content_difftype_query "data" aData (contentTypeOf aData)).map Prod.fst
        ⊆ fieldNames (generate_relationship_model exampleMd ("data", "publication")))
    ∧ "data_content_type" ∈ fieldNames (generate_relationship_model exampleMd ("data", "publication"))
    ∧ "data_object_id" ∉ fieldNames (generate_relationship_model exampleMd ("data", "publication"))
    ∧ "data_object_pk" ∈ fieldNames (generate_relationship_model exampleMd ("data", "publication"))
    ∧ ¬ (qexprKeys (get_related_content_sametype_query aScientist (contentTypeOf aScientist))
        ⊆ fieldNames (generate_relationship_model exampleMd ("scientist", "scientist")))
    ∧ "object_id_1" ∉ fieldNames (generate_relationship_model exampleMd ("scientist", "scientist"))
    ∧ "object_pk_1" ∈ fieldNames (generate_relationship_model exampleMd ("scientist", "scientist"))
    ∧ ((_relationship_query aData (some "data") aPublication (some "publication")).map Prod.fst
        ≠ (difftypeSaveQuery "data" "publication" c4Self).map Prod.fst) := by
  decide

/-! ## Claim C5 -/

/-- C5 counterexample: the generated `DataPublicationRelationship` model
declares no ORM-level uniqueness at all — no `Meta` constraint over its
endpoint fields and no `unique=True` field — refuting the claim that every
generated relationship model declares one. -/
theorem C5_counterexample_no_unique_constraint :
    modelDeclaresUniqueness (generate_relationship_model exampleMd ("data", "publication"))
      = false
    ∧ (generate_relationship_model exampleMd ("data", "publication")).unique_constraints = [] := by
  decide

/-- C5 (amended): no generated relationship model declares an ORM-level
uniqueness constraint over its endpoint fields; preventing duplicate
junction rows is left entirely to the deduplication logic in `save()`. -/
theorem C5_no_orm_uniqueness (md : Metadata) (r : String × String) :
    modelDeclaresUniqueness (generate_relationship_model md r) = false
    ∧ (generate_relationship_model md r).unique_constraints = [] := by
  unfold generate_relationship_model
  rcases hs : ((sortPairStr r.1 r.2).1 == (sortPairStr r.1 r.2).2) with _ | _ <;>
    simp [hs, modelDeclaresUniqueness, sametypeBaseFields, difftypeFields, fieldUnique]

/-! ## Claim C8 -/

/-- C8: no object can be related to itself: `add_related_content(x, x)`
raises `ValueError` (before any database access), and the reflexive
`save()` does not persist an instance whose two endpoints coincide. -/
theorem C8_no_self_relationship :
    (∀ (md : Metadata) (db : DB) (x : Obj),
        add_related_content md db x x = Except.error "ValueError")
    ∧ (∀ (table : Table) (pk : Option Nat) (v : Val) (n : Nat) (s : String),
        sametype_save table ⟨pk, v, n, v, n, s⟩ = (table, none)) := by
  constructor
  · intro md db x
    simp [add_related_content, _add_or_remove_related_content_sametype]
  · intro table pk v n s
    simp [sametype_save]

/-! ## Claim C4 -/

/-- C4 counterexample: on a reflexive relationship instance whose two
endpoints coincide, the deduplication `get` finds nothing (it raises), yet
no new record is inserted — `save()` skips persisting instead, contrary to
the claim that a caught `get` always leads to an insert. -/
theorem C4_counterexample_selfpair_not_inserted :
    tableGet ([] : Table) (sametypeSaveQuery c4Self) = none
    ∧ sametype_save [] c4Self = ([], none) := by
  decide

/-- C4 (amended): `save()` decides insert-vs-update by a single caught
`get`: when a record with the same two endpoints exists (in either
orientation for matching velcro types) its primary key is adopted and the
save updates in place (the table's keys are unchanged); when the `get`
raises, the exception is caught and a new record is inserted — except on a
reflexive model whose instance has both endpoints equal, which is not
persisted at all.  No other failure or retry handling occurs. -/
theorem C4_save_insert_vs_update (t1 t2 : String) (table : Table) (self : RelInstance) :
    (∀ p r, tableGet table (QExpr.kv (difftypeSaveQuery t1 t2 self)) = some (p, r) →
        (difftype_save t1 t2 table self).2 = p
        ∧ (difftype_save t1 t2 table self).1.map Prod.fst = table.map Prod.fst)
    ∧ (tableGet table (QExpr.kv (difftypeSaveQuery t1 t2 self)) = none → self.pk = none →
        difftype_save t1 t2 table self
          = (table ++ [(freshPk table, difftypeRowOf t1 t2 self)], freshPk table))
    ∧ (∀ p r, tableGet table (sametypeSaveQuery self) = some (p, r) →
        (self.ct1 == self.ct2 && self.opk1 == self.opk2) = false →
        (sametype_save table self).2 = some p
        ∧ (sametype_save table self).1.map Prod.fst = table.map Prod.fst)
    ∧ (tableGet table (sametypeSaveQuery self) = none → self.pk = none →
        (self.ct1 == self.ct2 && self.opk1 == self.opk2) = false →
        sametype_save table self
          = (table ++ [(freshPk table, sametypeRowOf self)], some (freshPk table)))
    ∧ ((self.ct1 == self.ct2 && self.opk1 == self.opk2) = true →
        sametype_save table self = (table, none)) := by
  refine ⟨?_, ?_, ?_, ?_, ?_⟩
  · intro p r hget
    have hmem : (p, r) ∈ table := List.mem_of_find?_eq_some hget
    have hl : (List.lookup p table).isSome := natLookup_isSome_of_mem table p r hmem
    have := superSave_replace table p (difftypeRowOf t1 t2 self) hl
    simp only [difftype_save, hget]
    exact ⟨this.1, this.2⟩
  · intro hget hpk
    simp [difftype_save, hget, hpk, superSave, difftypeRowOf]
  · intro p r hget hne
    have hmem : (p, r) ∈ table := List.mem_of_find?_eq_some hget
    have hl : (List.lookup p table).isSome := natLookup_isSome_of_mem table p r hmem
    have := superSave_replace table p (sametypeRowOf self) hl
    simp only [sametype_save, hget, hne, Bool.false_eq_true, if_false]
    exact ⟨by rw [this.1], this.2⟩
  · intro hget hpk hne
    simp [sametype_save, hget, hpk, hne, superSave, sametypeRowOf]
  · intro heq
    simp [sametype_save, heq]

/-- C4 witness: the amended save behaviour evaluated at a concrete
differing-type instance over the empty table. -/
theorem C4_save_insert_vs_update_witness :
    tableGet ([] : Table)
        (QExpr.kv (difftypeSaveQuery "data" "publication" c4Self)) = none
    ∧ c4Self.pk = none
    ∧ difftype_save "data" "publication" [] c4Self
        = ([(freshPk [], difftypeRowOf "data" "publication" c4Self)], freshPk []) :=
  ⟨by decide, by decide,
    (C4_save_insert_vs_update "data" "publication" [] c4Self).2.1 (by decide) (by decide)⟩

/-! ## Claim C9 -/

theorem getVelcroTypeGo_eq_find? (al m : String) :
    ∀ l : List (String × TypeMeta),
      getVelcroTypeGo al m l
        = (l.find? fun p => p.2.apps.any fun mm => modelMetadataMatches mm al m).map
            Prod.fst := by
  intro l
  induction l with
  | nil => rfl
  | cons x xs ih =>
    rcases x with ⟨vt, tm⟩
    rcases hx : (tm.apps.any fun mm => modelMetadataMatches mm al m) with _ | _
    · simp [getVelcroTypeGo, hx, List.find?, ih]
    · simp [getVelcroTypeGo, hx, List.find?]

/-- C9: `get_velcro_type` scans the metadata items in sorted-key order and
returns the first velcro type one of whose `'apps'` entries has
`app_label` equal to the object's lowercased app label and `model` equal
(case-sensitively) to the object's class name; when no entry matches it
returns `None` rather than raising. -/
theorem C9_get_velcro_type (md : Metadata) (o : Obj) :
    get_velcro_type md o
      = ((sortByKey md).find? fun p =>
          p.2.apps.any fun mm =>
            modelMetadataMatches mm (pyLower o.app_label) o.object_name).map Prod.fst
    ∧ ((∀ p ∈ md, ∀ mm ∈ p.2.apps,
          ¬ (mm.app_label = pyLower o.app_label ∧ mm.model = o.object_name)) →
        get_velcro_type md o = none) := by
  constructor
  · exact getVelcroTypeGo_eq_find? (pyLower o.app_label) o.object_name (sortByKey md)
  · intro hnone
    unfold get_velcro_type
    rw [getVelcroTypeGo_eq_find? (pyLower o.app_label) o.object_name (sortByKey md)]
    have hfind :
        ((sortByKey md).find? fun p =>
          p.2.apps.any fun mm =>
            modelMetadataMatches mm (pyLower o.app_label) o.object_name) = none := by
      apply List.find?_eq_none.mpr
      intro p hp
      have hpmem : p ∈ md :=
        ((List.perm_insertionSort
            (fun a b : String × TypeMeta => strLe a.1 b.1 = true) md).mem_iff).mp
          (by simpa [sortByKey] using hp)
      rcases hany : (p.2.apps.any fun mm =>
          modelMetadataMatches mm (pyLower o.app_label) o.object_name) with _ | _
      · simp
      · exfalso
        rcases List.any_eq_true.mp hany with ⟨mm, hmm, hmatch⟩
        exact hnone p hpmem mm hmm (by simpa [modelMetadataMatches] using hmatch)
    rw [hfind]
    rfl

/-- C9 witness: the sorted-scan equation and the `None` case evaluated on
the example configuration and an unlisted model. -/
theorem C9_get_velcro_type_witness :
    (∀ p ∈ exampleMd, ∀ mm ∈ p.2.apps,
        ¬ (mm.app_label = pyLower (Obj.mk "other" "Widget" 1).app_label
            ∧ mm.model = (Obj.mk "other" "Widget" 1).object_name))
    ∧ get_velcro_type exampleMd (Obj.mk "other" "Widget" 1) = none :=
  ⟨by decide, (C9_get_velcro_type exampleMd (Obj.mk "other" "Widget" 1)).2 (by decide)⟩

/-! ## Claim C10 -/

theorem relatedOf_eq_some_iff (vt x : String) (r : String × String) :
    relatedOf vt r = some x ↔ ((vt = r.1 ∧ x = r.2) ∨ (vt = r.2 ∧ x = r.1)) := by
  rcases r with ⟨a, b⟩
  by_cases h1 : a = vt
  · have hb1 : (a == vt) = true := beq_iff_eq.mpr h1
    simp only [relatedOf, hb1, if_true, Option.some.injEq]
    constructor
    · intro h
      exact Or.inl ⟨h1.symm, h.symm⟩
    · rintro (⟨-, h⟩ | ⟨hvb, hxa⟩)
      · exact h.symm
      · exact (hvb.symm.trans h1.symm).trans hxa.symm
  · have hb1 : (a == vt) = false := beq_eq_false_iff_ne.mpr h1
    by_cases h2 : b = vt
    · have hb2 : (b == vt) = true := beq_iff_eq.mpr h2
      simp only [relatedOf, hb1, Bool.false_eq_true, if_false, hb2, if_true,
        Option.some.injEq]
      constructor
      · intro h
        exact Or.inr ⟨h2.symm, h.symm⟩
      · rintro (⟨h3, -⟩ | ⟨-, h4⟩)
        · exact absurd h3.symm h1
        · exact h4.symm
    · have hb2 : (b == vt) = false := beq_eq_false_iff_ne.mpr h2
      simp only [relatedOf, hb1, hb2, Bool.false_eq_true, if_false]
      constructor
      · intro h
        exact Option.noConfusion h
      · rintro (⟨h3, -⟩ | ⟨h4, -⟩)
        · exact absurd h3.symm h1
        · exact absurd h4.symm h2

theorem validateGo_mem (md : Metadata) (ar : List String) :
    ∀ (l acc : List String) (x : String),
      x ∈ validateGo md ar l acc
        ↔ x ∈ acc ∨ (x ∈ l ∧ is_valid_velcro_type md x = true ∧ x ∈ ar) := by
  intro l
  induction l with
  | nil => intro acc x; simp [validateGo]
  | cons rt rest ih =>
    intro acc x
    rcases hv : is_valid_velcro_type md rt with _ | _
    · simp only [validateGo, hv, if_true]
      rw [ih acc x]
      constructor
      · rintro (h | ⟨h1, h2, h3⟩)
        · exact Or.inl h
        · exact Or.inr ⟨List.mem_cons_of_mem rt h1, h2, h3⟩
      · rintro (h | ⟨h1, h2, h3⟩)
        · exact Or.inl h
        · rcases List.mem_cons.mp h1 with h1 | h1
          · rw [h1] at h2
            rw [hv] at h2
            exact absurd h2 (by simp)
          · exact Or.inr ⟨h1, h2, h3⟩
    · by_cases har : rt ∈ ar
      · by_cases hacc : rt ∈ acc
        · simp only [validateGo, hv, Bool.true_eq_false, if_false, har, not_true,
            hacc, if_true]
          rw [ih acc x]
          constructor
          · rintro (h | ⟨h1, h2, h3⟩)
            · exact Or.inl h
            · exact Or.inr ⟨List.mem_cons_of_mem rt h1, h2, h3⟩
          · rintro (h | ⟨h1, h2, h3⟩)
            · exact Or.inl h
            · rcases List.mem_cons.mp h1 with h1 | h1
              · rw [h1]; exact Or.inl hacc
              · exact Or.inr ⟨h1, h2, h3⟩
        · simp only [validateGo, hv, Bool.true_eq_false, if_false, har, not_true,
            hacc, if_true]
          rw [ih (acc ++ [rt]) x]
          constructor
          · rintro (hmem | ⟨h1, h2, h3⟩)
            · rcases List.mem_append.mp hmem with h | h
              · exact Or.inl h
              · have hx : x = rt := by simpa using h
                rw [hx]
                exact Or.inr ⟨List.mem_cons_self rt rest, hv, har⟩
            · exact Or.inr ⟨List.mem_cons_of_mem rt h1, h2, h3⟩
          · rintro (h | ⟨h1, h2, h3⟩)
            · exact Or.inl (List.mem_append.mpr (Or.inl h))
            · rcases List.mem_cons.mp h1 with h1 | h1
              · rw [h1]
                exact Or.inl (List.mem_append.mpr (Or.inr (by simp)))
              · exact Or.inr ⟨h1, h2, h3⟩
      · simp only [validateGo, hv, Bool.true_eq_false, if_false, har, not_false_iff,
          if_true]
        rw [ih acc x]
        constructor
        · rintro (h | ⟨h1, h2, h3⟩)
          · exact Or.inl h
          · exact Or.inr ⟨List.mem_cons_of_mem rt h1, h2, h3⟩
        · rintro (h | ⟨h1, h2, h3⟩)
          · exact Or.inl h
          · rcases List.mem_cons.mp h1 with h1 | h1
            · rw [h1] at h3
              exact absurd h3 har
            · exact Or.inr ⟨h1, h2, h3⟩

theorem validateGo_nodup (md : Metadata) (ar : List String) :
    ∀ (l acc : List String), acc.Nodup → (validateGo md ar l acc).Nodup := by
  intro l
  induction l with
  | nil => intro acc h; exact h
  | cons rt rest ih =>
    intro acc hacc
    rcases hv : is_valid_velcro_type md rt with _ | _
    · simp only [validateGo, hv, if_true]
      exact ih acc hacc
    · by_cases har : rt ∈ ar
      · by_cases hin : rt ∈ acc
        · simp only [validateGo, hv, Bool.true_eq_false, if_false, har, not_true,
            hin, if_true]
          exact ih acc hacc
        · simp only [validateGo, hv, Bool.true_eq_false, if_false, har, not_true,
            hin, if_true]
          exact ih (acc ++ [rt]) (by simp [List.nodup_append, hacc, hin])
      · simp only [validateGo, hv, Bool.true_eq_false, if_false, har, not_false_iff,
          if_true]
        exact ih acc hacc

theorem validateGo_sublist (md : Metadata) (ar : List String) :
    ∀ (l acc : List String), ∃ l', l'.Sublist l ∧ validateGo md ar l acc = acc ++ l' := by
  intro l
  induction l with
  | nil => intro acc; exact ⟨[], List.Sublist.refl [], by simp [validateGo]⟩
  | cons rt rest ih =>
    intro acc
    rcases hv : is_valid_velcro_type md rt with _ | _
    · rcases ih acc with ⟨l', hl, he⟩
      refine ⟨l', hl.cons rt, ?_⟩
      simp only [validateGo, hv, if_true]
      exact he
    · by_cases har : rt ∈ ar
      · by_cases hin : rt ∈ acc
        · rcases ih acc with ⟨l', hl, he⟩
          refine ⟨l', hl.cons rt, ?_⟩
          simp only [validateGo, hv, Bool.true_eq_false, if_false, har, not_true,
            hin, if_true]
          exact he
        · rcases ih (acc ++ [rt]) with ⟨l', hl, he⟩
          refine ⟨rt :: l', hl.cons₂ rt, ?_⟩
          simp only [validateGo, hv, Bool.true_eq_false, if_false, har, not_true,
            hin, if_true]
          rw [he, List.append_assoc]
          rfl
      · rcases ih acc with ⟨l', hl, he⟩
        refine ⟨l', hl.cons rt, ?_⟩
        simp only [validateGo, hv, Bool.true_eq_false, if_false, har, not_false_iff,
          if_true]
        exact he

/-- C10: with no explicit related types, `get_or_validate_related_types`
returns all related types (the other member of every relationship tuple
containing the velcro type) in sorted order; with a non-empty list it
returns exactly the given entries that are valid velcro types related to
the velcro type, duplicates removed, first-occurrence order preserved, and
never raises (invalid entries only produce printed warnings). -/
theorem C10_related_type_selection (md : Metadata) (rels : Relationships) (vt : String) :
    (get_or_validate_related_types md rels vt [] = get_related_types rels vt)
    ∧ List.Sorted (fun a b => strLe a b = true) (get_related_types rels vt)
    ∧ (∀ x, x ∈ get_related_types rels vt
        ↔ ∃ r ∈ rels, (vt = r.1 ∧ x = r.2) ∨ (vt = r.2 ∧ x = r.1))
    ∧ (∀ L, L ≠ [] →
        get_or_validate_related_types md rels vt L = validate_related_types md rels vt L
        ∧ (validate_related_types md rels vt L).Nodup
        ∧ (∀ x, x ∈ validate_related_types md rels vt L
            ↔ (x ∈ L ∧ is_valid_velcro_type md x = true ∧ x ∈ get_related_types rels vt))
        ∧ (validate_related_types md rels vt L).Sublist L) := by
  refine ⟨by simp [get_or_validate_related_types], ?_, ?_, ?_⟩
  · exact List.sorted_insertionSort _ _
  · intro x
    unfold get_related_types sortStrs
    rw [(List.perm_insertionSort (fun a b => strLe a b = true) _).mem_iff]
    simp only [List.mem_filterMap]
    constructor
    · rintro ⟨r, hr, hro⟩
      exact ⟨r, hr, (relatedOf_eq_some_iff vt x r).mp hro⟩
    · rintro ⟨r, hr, hro⟩
      exact ⟨r, hr, (relatedOf_eq_some_iff vt x r).mpr hro⟩
  · intro L hL
    refine ⟨by simp [get_or_validate_related_types, hL], ?_, ?_, ?_⟩
    · exact validateGo_nodup md (get_related_types rels vt) L [] List.nodup_nil
    · intro x
      unfold validate_related_types
      rw [validateGo_mem md (get_related_types rels vt) L [] x]
      simp
    · unfold validate_related_types
      rcases validateGo_sublist md (get_related_types rels vt) L [] with ⟨l', hl, he⟩
      rw [he]
      simpa using hl

/-- C10 witness: the selection behaviour evaluated on the example
configuration with a list containing an invalid entry, an unrelated entry
and a duplicate. -/
theorem C10_related_type_selection_witness :
    (["publication", "bogus", "publication", "scientist"] ≠ ([] : List String))
    ∧ (get_or_validate_related_types exampleMd exampleRels "data"
          ["publication", "bogus", "publication", "scientist"]
        = validate_related_types exampleMd exampleRels "data"
          ["publication", "bogus", "publication", "scientist"]) :=
  ⟨by decide,
    ((C10_related_type_selection exampleMd exampleRels "data").2.2.2
      ["publication", "bogus", "publication", "scientist"] (by decide)).1⟩

/-! ## Claim C3 -/

/-- C3: for every relationship tuple, the generated model is named
`'{A}{B}Relationship'` from the sorted capitalized velcro types, is
installed in the module's globals, carries an `order_by` char field and
`Meta.ordering = ['order_by']`, and for each side of the relationship has
a `ContentType` foreign key limited to that velcro type's configured
models, a positive-integer object key field, and a generic foreign key
combining exactly those two fields. -/
theorem C3_generated_relationship_model (md : Metadata) (rels : Relationships)
    (r : String × String) (hr : r ∈ rels) :
    (generate_relationship_model md r).name
      = pyCapitalize (sortPairStr r.1 r.2).1 ++ pyCapitalize (sortPairStr r.1 r.2).2
        ++ "Relationship"
    ∧ ((generate_relationship_model md r).name, generate_relationship_model md r)
        ∈ models_globals md rels
    ∧ ("order_by", FieldSpec.charField 255 true false)
        ∈ (generate_relationship_model md r).fields
    ∧ (generate_relationship_model md r).meta_ordering = ["order_by"]
    ∧ (∀ vt ∈ [r.1, r.2], ∃ ct opk gfk rn,
        (ct, FieldSpec.contentTypeFK (limitFor md vt) rn false)
          ∈ (generate_relationship_model md r).fields
        ∧ (opk, FieldSpec.positiveInteger false) ∈ (generate_relationship_model md r).fields
        ∧ (gfk, FieldSpec.genericFK ct opk) ∈ (generate_relationship_model md r).fields) := by
  refine ⟨?_, ?_, ?_, ?_, ?_⟩
  · unfold generate_relationship_model
    rcases hs : ((sortPairStr r.1 r.2).1 == (sortPairStr r.1 r.2).2) with _ | _ <;>
      simp [hs]
  · exact List.mem_map_of_mem
      (fun r => ((generate_relationship_model md r).name, generate_relationship_model md r))
      hr
  · unfold generate_relationship_model
    rcases hs : ((sortPairStr r.1 r.2).1 == (sortPairStr r.1 r.2).2) with _ | _ <;>
      simp [hs]
  · unfold generate_relationship_model
    rcases hs : ((sortPairStr r.1 r.2).1 == (sortPairStr r.1 r.2).2) with _ | _ <;>
      simp [hs]
  · intro vt hvt
    rcases r with ⟨a, b⟩
    unfold generate_relationship_model
    rcases hs : ((sortPairStr a b).1 == (sortPairStr a b).2) with _ | _
    · -- differing velcro types: fields are prefixed by the type name
      rcases List.mem_cons.mp hvt with h | h
      · simp only at h
        subst h
        refine ⟨vt ++ "_content_type", vt ++ "_object_pk", vt ++ "_content_object",
          "%(app_label)s_%(class)s_related_" ++ vt, ?_⟩
        simp [hs, difftypeFields]
      · have h : vt = b := by simpa using h
        subst h
        refine ⟨vt ++ "_content_type", vt ++ "_object_pk", vt ++ "_content_object",
          "%(app_label)s_%(class)s_related_" ++ vt, ?_⟩
        simp [hs, difftypeFields]
    · -- matching velcro types: suffixed endpoint fields
      have heq : a = b := (sortPairStr_fst_eq_snd_iff a b).mp (by simpa using hs)
      subst heq
      have hvt1 : vt = a := by simpa using hvt
      subst hvt1
      refine ⟨"content_type_1", "object_pk_1", "content_object_1",
        "%(app_label)s_%(class)s_related_1", ?_⟩
      simp [sortPairStr_self, sametypeBaseFields]

/-- C3 witness: the generated-model structure evaluated on the docstring
configuration's `('data', 'publication')` relationship. -/
theorem C3_generated_relationship_model_witness :
    (("data", "publication") ∈ exampleRels)
    ∧ (generate_relationship_model exampleMd ("data", "publication")).name
        = pyCapitalize (sortPairStr "data" "publication").1
          ++ pyCapitalize (sortPairStr "data" "publication").2 ++ "Relationship" :=
  ⟨by decide,
    (C3_generated_relationship_model exampleMd exampleRels ("data", "publication")
      (by decide)).1⟩

/-! ## Claim C7 -/

/-- C7: reflexive relationships are special-cased: the generated model
names its endpoint fields with `_1`/`_2` suffixes instead of velcro-type
prefixes, and the admin layer generates a `...RelationshipReverseInline`
class which appears in the per-type inline list only for reflexive
relationships; however the reflexive related-content query filters on
`object_id_1/2`, which are not fields of the generated reflexive model
(it defines `object_pk_1/2`), so the claimed query behaviour fails on the
code. -/
theorem C7_reflexive_specialcasing :
    (∀ (md : Metadata) (vt : String),
        fieldNames (generate_relationship_model md (vt, vt))
          = ["content_type_1", "object_pk_1", "content_object_1",
             "content_type_2", "object_pk_2", "content_object_2", "order_by"])
    ∧ (∀ (md : Metadata) (st : Settings) (vt : String),
        (generate_inline_model md st (vt, vt) true).1
          = relationshipReverseInlineName vt vt
        ∧ (generate_inline_model md st (vt, vt) false).1
          = relationshipInlineName vt vt)
    ∧ get_relationship_inlines exampleMd exampleRels "scientist" []
        = ["ScientistToScientistRelationshipInline",
           "ScientistToScientistRelationshipReverseInline"]
    ∧ get_relationship_inlines exampleMd exampleRels "data" []
        = ["DataToPublicationRelationshipInline"]
    ∧ qexprKeys (get_related_content_sametype_query aScientist (contentTypeOf aScientist))
        = ["content_type_1", "object_id_1", "content_type_2", "object_id_2"]
    ∧ "object_id_1" ∉ fieldNames (generate_relationship_model exampleMd ("scientist", "scientist"))
    ∧ "object_id_2" ∉ fieldNames (generate_relationship_model exampleMd ("scientist", "scientist")) := by
  refine ⟨?_, ?_, by decide, by decide, by decide, by decide, by decide⟩
  · intro md vt
    unfold generate_relationship_model
    rw [sortPairStr_self]
    simp [fieldNames, sametypeBaseFields]
  · intro md st vt
    unfold generate_inline_model
    rw [sortPairStr_self]
    simp

/-! ## Claim C2 helper lemmas -/

theorem get_relationship_class_name_comm (t1 t2 : String) :
    get_relationship_class_name t1 t2 = get_relationship_class_name t2 t1 := by
  unfold get_relationship_class_name
  rw [sortPairStr_comm]

theorem tableGet_append_of_none (t1 t2 : Table) (q : QExpr)
    (h : tableGet t1 q = none) : tableGet (t1 ++ t2) q = tableGet t2 q := by
  induction t1 with
  | nil => simp
  | cons e es ih =>
    rcases hq : qMatches e.2 q with _ | _
    · simp only [tableGet, List.find?, hq] at h ⊢
      exact ih (by simpa [tableGet] using h)
    · simp only [tableGet, List.find?, hq] at h
      exact absurd h (by simp)

/-- The creation keyword arguments of the matching-type add. -/
theorem sametype_params_self_match (o1 o2 : Obj) :
    kvMatches
      [("content_type_1", contentTypeOf o1), ("object_id_1", Val.num o1.id),
       ("content_type_2", contentTypeOf o2), ("object_id_2", Val.num o2.id)]
      [("content_type_1", contentTypeOf o1), ("object_id_1", Val.num o1.id),
       ("content_type_2", contentTypeOf o2), ("object_id_2", Val.num o2.id)] = true := by
  apply kvMatches_self
  show (["content_type_1", "object_id_1", "content_type_2", "object_id_2"] :
    List String).Nodup
  decide

theorem relationship_query_self_match (o1 o2 : Obj) (t1 t2 : String) (h : t1 ≠ t2) :
    kvMatches (_relationship_query o1 (some t1) o2 (some t2))
      (_relationship_query o1 (some t1) o2 (some t2)) = true :=
  kvMatches_self _ (relationship_query_keys_nodup o1 o2 t1 t2 h)

theorem getOrCreate_of_none (t : Table) (pairs : List (String × Val))
    (h : tableGet t (QExpr.kv pairs) = none) :
    getOrCreate t pairs = (t ++ [(freshPk t, pairs)], freshPk t, true) := by
  unfold getOrCreate
  rw [h]

theorem getOrCreate_of_some (t : Table) (pairs : List (String × Val)) (pk : Nat) (row : Row)
    (h : tableGet t (QExpr.kv pairs) = some (pk, row)) :
    getOrCreate t pairs = (t, pk, false) := by
  unfold getOrCreate
  rw [h]

/-! ## Claim C2 -/

/-- C2: the two argument orders are built to address the same
relationship record — the relationship class name and both matching
predicates are symmetric in the two objects — but the program can never
exhibit the claimed round trip: its queries and creation keyword
arguments use the `_object_id` names, which Django's field resolution
rejects against the generated models' `_object_pk` fields.  Evaluated on
the example configuration with both relationship tables installed and
carrying their models' field names, the differing-type add and remove
raise `FieldError` from `get_or_create`/`get`; the reflexive add's bare
`except` swallows the `get`'s `FieldError` and `objects.create(**params)`
then raises `TypeError`; the reflexive remove raises `FieldError`.  So
`add_related_content` never succeeds on the source. -/
theorem C2_symmetry_unreachable :
    (∀ t1 t2 : String,
        get_relationship_class_name t1 t2 = get_relationship_class_name t2 t1)
    ∧ (∀ (row : Row) (o1 o2 : Obj) (t1 t2 : Option String),
        kvMatches row (_relationship_query o1 t1 o2 t2)
          = kvMatches row (_relationship_query o2 t2 o1 t1))
    ∧ (∀ (row : Row) (o1 o2 : Obj),
        qMatches row (sametypeAddRemoveQuery o1 o2)
          = qMatches row (sametypeAddRemoveQuery o2 o1))
    ∧ add_related_content_resolved exampleMd exampleSchemaDb aData aPublication
        = Except.error "FieldError"
    ∧ add_related_content_resolved exampleMd exampleSchemaDb aScientist bScientist
        = Except.error "TypeError"
    ∧ remove_related_content_resolved exampleMd exampleSchemaDb aData aPublication
        = Except.error "FieldError"
    ∧ remove_related_content_resolved exampleMd exampleSchemaDb aScientist bScientist
        = Except.error "FieldError" :=
  ⟨get_relationship_class_name_comm,
   kvMatches_relationship_query_swap,
   qMatches_sametype_swap,
   rfl, rfl, rfl, rfl⟩

/-! ## Claim C6 helper lemmas -/

theorem phase1_keeps_relationship_admin (md : Metadata) (st : Settings) :
    ∀ (rels : Relationships) (acc : List (String × InlineSpec) × AdminSite) (n : String),
      siteLookup acc.2 (AdminKey.relationship n)
        = some ⟨n ++ "Admin", true, ["order_by"], []⟩ →
      siteLookup (adminStartupPhase1 md st rels acc).2 (AdminKey.relationship n)
        = some ⟨n ++ "Admin", true, ["order_by"], []⟩ := by
  intro rels
  induction rels with
  | nil => intro acc n h; exact h
  | cons r rest ih =>
    intro acc n h
    simp only [adminStartupPhase1]
    apply ih
    show siteLookup (generate_and_register_admin_model acc.2 r) (AdminKey.relationship n) = _
    simp only [generate_and_register_admin_model]
    by_cases hn : n = pyCapitalize (sortPairStr r.1 r.2).1
        ++ pyCapitalize (sortPairStr r.1 r.2).2 ++ "Relationship"
    · rw [← hn]
      rw [siteLookup_siteRegister_self]
    · rw [siteLookup_siteRegister_ne _ _ _ _
        (fun hk => hn (AdminKey.relationship.inj hk))]
      exact h

theorem phase1_registers_relationship_admin (md : Metadata) (st : Settings) :
    ∀ (rels : Relationships) (acc : List (String × InlineSpec) × AdminSite)
      (r : String × String), r ∈ rels →
      siteLookup (adminStartupPhase1 md st rels acc).2
          (AdminKey.relationship
            (pyCapitalize (sortPairStr r.1 r.2).1 ++ pyCapitalize (sortPairStr r.1 r.2).2
              ++ "Relationship"))
        = some ⟨(pyCapitalize (sortPairStr r.1 r.2).1 ++ pyCapitalize (sortPairStr r.1 r.2).2
              ++ "Relationship") ++ "Admin", true, ["order_by"], []⟩ := by
  intro rels
  induction rels with
  | nil => intro acc r hr; simp at hr
  | cons r0 rest ih =>
    intro acc r hr
    rcases List.mem_cons.mp hr with h | h
    · subst h
      simp only [adminStartupPhase1]
      apply phase1_keeps_relationship_admin
      show siteLookup (generate_and_register_admin_model acc.2 r) (AdminKey.relationship _) = _
      simp only [generate_and_register_admin_model]
      rw [siteLookup_siteRegister_self]
    · simp only [adminStartupPhase1]
      exact ih _ r h

theorem addVelcro_keeps_relationship_key (md : Metadata) (rels : Relationships)
    (st : Settings) (site : AdminSite) (app_name model_name vt n : String) :
    siteLookup (add_velcro_to_third_party_admin md rels st site app_name model_name vt)
        (AdminKey.relationship n)
      = siteLookup site (AdminKey.relationship n) := by
  simp only [add_velcro_to_third_party_admin]
  exact siteLookup_siteRegister_ne _ _ _ _ (fun h => AdminKey.noConfusion h)

theorem foldl_addVelcro_keeps_relationship_key (md : Metadata) (rels : Relationships)
    (st : Settings) (vt n : String) :
    ∀ (apps : List ModelMeta) (site : AdminSite),
      siteLookup
          (apps.foldl
            (fun s mm => add_velcro_to_third_party_admin md rels st s mm.app_label mm.model vt)
            site)
          (AdminKey.relationship n)
        = siteLookup site (AdminKey.relationship n) := by
  intro apps
  induction apps with
  | nil => intro site; rfl
  | cons mm rest ih =>
    intro site
    simp only [List.foldl_cons]
    rw [ih, addVelcro_keeps_relationship_key]

theorem phase2_keeps_relationship_key (md : Metadata) (rels : Relationships)
    (st : Settings) (n : String) :
    ∀ (items : List (String × TypeMeta)) (site : AdminSite),
      siteLookup (adminStartupPhase2 md rels st items site) (AdminKey.relationship n)
        = siteLookup site (AdminKey.relationship n) := by
  intro items
  induction items with
  | nil => intro site; rfl
  | cons p rest ih =>
    intro site
    rcases p with ⟨vt, tm⟩
    simp only [adminStartupPhase2]
    rw [ih, foldl_addVelcro_keeps_relationship_key]

theorem phase1_globals_mono (md : Metadata) (st : Settings) :
    ∀ (rels : Relationships) (acc : List (String × InlineSpec) × AdminSite) (x : String),
      x ∈ acc.1.map Prod.fst →
      x ∈ (adminStartupPhase1 md st rels acc).1.map Prod.fst := by
  intro rels
  induction rels with
  | nil => intro acc x h; exact h
  | cons r rest ih =>
    intro acc x h
    simp only [adminStartupPhase1]
    apply ih
    rcases hin : st.VELCRO_INLINES with _ | _
    · simpa [hin] using h
    · simp only [hin, if_true, List.map_cons]
      exact List.mem_cons_of_mem _ (List.mem_cons_of_mem _ h)

theorem phase1_generates_inlines (md : Metadata) (st : Settings) :
    ∀ (rels : Relationships) (acc : List (String × InlineSpec) × AdminSite)
      (r : String × String), r ∈ rels → st.VELCRO_INLINES = true →
      (generate_inline_model md st r false).1 ∈ (adminStartupPhase1 md st rels acc).1.map Prod.fst
      ∧ (generate_inline_model md st r true).1 ∈ (adminStartupPhase1 md st rels acc).1.map Prod.fst := by
  intro rels
  induction rels with
  | nil => intro acc r hr; simp at hr
  | cons r0 rest ih =>
    intro acc r hr hin
    rcases List.mem_cons.mp hr with h | h
    · subst h
      simp only [adminStartupPhase1, hin, if_true]
      constructor
      · apply phase1_globals_mono
        simp
      · apply phase1_globals_mono
        simp
    · simp only [adminStartupPhase1]
      exact ih _ r h hin

theorem generate_inline_model_fwd_name (md : Metadata) (st : Settings) (r : String × String) :
    (generate_inline_model md st r false).1
      = relationshipInlineName (sortPairStr r.1 r.2).1 (sortPairStr r.1 r.2).2 := by
  simp only [generate_inline_model]
  rcases h : ((sortPairStr r.1 r.2).1 == (sortPairStr r.1 r.2).2) with _ | _ <;>
    simp [h]

theorem generate_inline_model_rev_name (md : Metadata) (st : Settings) (r : String × String) :
    (generate_inline_model md st r true).1
      = (if (sortPairStr r.1 r.2).1 = (sortPairStr r.1 r.2).2
         then relationshipReverseInlineName (sortPairStr r.1 r.2).1 (sortPairStr r.1 r.2).2
         else relationshipInlineName (sortPairStr r.1 r.2).2 (sortPairStr r.1 r.2).1) := by
  simp only [generate_inline_model]
  rcases h : ((sortPairStr r.1 r.2).2 == (sortPairStr r.1 r.2).1) with _ | _
  · have hne : (sortPairStr r.1 r.2).1 ≠ (sortPairStr r.1 r.2).2 :=
      fun he => (beq_eq_false_iff_ne.mp h) he.symm
    simp [h, hne]
  · have heq : (sortPairStr r.1 r.2).2 = (sortPairStr r.1 r.2).1 := beq_iff_eq.mp h
    simp [h, heq]

theorem mem_get_relationship_inlines (md : Metadata) (rels : Relationships)
    (vt other : String) (r : String × String) (hr : r ∈ rels)
    (hor : (vt, other) = r ∨ (vt, other) = (r.2, r.1)) :
    relationshipInlineName vt other ∈ get_relationship_inlines md rels vt [] := by
  have hmem : other ∈ get_related_types rels vt := by
    unfold get_related_types sortStrs
    rw [(List.perm_insertionSort (fun a b => strLe a b = true) _).mem_iff]
    apply List.mem_filterMap.mpr
    refine ⟨r, hr, ?_⟩
    rcases r with ⟨x, y⟩
    rcases hor with h | h
    · obtain ⟨hx, hy⟩ := Prod.mk.inj h
      subst hx
      subst hy
      simp [relatedOf]
    · simp only [Prod.mk.injEq] at h
      obtain ⟨hx, hy⟩ := h
      subst hx
      subst hy
      by_cases hov : other = vt
      · subst hov
        simp [relatedOf]
      · have hb : (other == vt) = false := beq_eq_false_iff_ne.mpr hov
        simp [relatedOf, hb]
  unfold get_relationship_inlines
  apply List.mem_flatMap.mpr
  refine ⟨other, ?_, ?_⟩
  · simpa [get_or_validate_related_types] using hmem
  · rcases hb : (vt == other) with _ | _ <;> simp [hb]

theorem addVelcro_adds_inline (md : Metadata) (rels : Relationships) (st : Settings)
    (site : AdminSite) (app_name model_name vt : String)
    (hin : st.VELCRO_INLINES = true) (X : String)
    (hX : X ∈ get_relationship_inlines md rels vt []) :
    ∃ e, siteLookup (add_velcro_to_third_party_admin md rels st site app_name model_name vt)
        (AdminKey.thirdParty app_name model_name) = some e
      ∧ X ∈ e.inlines := by
  simp only [add_velcro_to_third_party_admin, hin, if_true]
  refine ⟨_, siteLookup_siteRegister_self _ _ _, ?_⟩
  exact List.mem_append.mpr (Or.inr hX)

theorem addVelcro_keeps_inline (md : Metadata) (rels : Relationships) (st : Settings)
    (site : AdminSite) (app_name model_name vt app' model' : String) (X : String)
    (h : ∃ e, siteLookup site (AdminKey.thirdParty app' model') = some e ∧ X ∈ e.inlines) :
    ∃ e, siteLookup (add_velcro_to_third_party_admin md rels st site app_name model_name vt)
        (AdminKey.thirdParty app' model') = some e
      ∧ X ∈ e.inlines := by
  rcases h with ⟨e, he, hXe⟩
  by_cases hk : AdminKey.thirdParty app' model' = AdminKey.thirdParty app_name model_name
  · simp only [add_velcro_to_third_party_admin, ← hk, he, Option.getD_some]
    refine ⟨_, siteLookup_siteRegister_self _ _ _, ?_⟩
    rcases hin : st.VELCRO_INLINES with _ | _
    · simpa [hin] using hXe
    · simp only [hin, if_true]
      exact List.mem_append.mpr (Or.inl hXe)
  · simp only [add_velcro_to_third_party_admin]
    rw [siteLookup_siteRegister_ne _ _ _ _ hk]
    exact ⟨e, he, hXe⟩

theorem foldl_addVelcro_keeps_inline (md : Metadata) (rels : Relationships) (st : Settings)
    (vt app' model' : String) (X : String) :
    ∀ (apps : List ModelMeta) (site : AdminSite),
      (∃ e, siteLookup site (AdminKey.thirdParty app' model') = some e ∧ X ∈ e.inlines) →
      ∃ e, siteLookup
          (apps.foldl
            (fun s mm => add_velcro_to_third_party_admin md rels st s mm.app_label mm.model vt)
            site)
          (AdminKey.thirdParty app' model') = some e
        ∧ X ∈ e.inlines := by
  intro apps
  induction apps with
  | nil => intro site h; exact h
  | cons mm rest ih =>
    intro site h
    simp only [List.foldl_cons]
    exact ih _ (addVelcro_keeps_inline md rels st site mm.app_label mm.model vt app' model' X h)

theorem foldl_addVelcro_adds_inline (md : Metadata) (rels : Relationships) (st : Settings)
    (vt : String) (hin : st.VELCRO_INLINES = true) (X : String)
    (hX : X ∈ get_relationship_inlines md rels vt []) :
    ∀ (apps : List ModelMeta) (site : AdminSite) (mm : ModelMeta), mm ∈ apps →
      ∃ e, siteLookup
          (apps.foldl
            (fun s m => add_velcro_to_third_party_admin md rels st s m.app_label m.model vt)
            site)
          (AdminKey.thirdParty mm.app_label mm.model) = some e
        ∧ X ∈ e.inlines := by
  intro apps
  induction apps with
  | nil => intro site mm hmm; simp at hmm
  | cons m0 rest ih =>
    intro site mm hmm
    rcases List.mem_cons.mp hmm with h | h
    · subst h
      simp only [List.foldl_cons]
      apply foldl_addVelcro_keeps_inline
      exact addVelcro_adds_inline md rels st site mm.app_label mm.model vt hin X hX
    · simp only [List.foldl_cons]
      exact ih _ mm h

theorem phase2_keeps_inline (md : Metadata) (rels : Relationships) (st : Settings)
    (app' model' : String) (X : String) :
    ∀ (items : List (String × TypeMeta)) (site : AdminSite),
      (∃ e, siteLookup site (AdminKey.thirdParty app' model') = some e ∧ X ∈ e.inlines) →
      ∃ e, siteLookup (adminStartupPhase2 md rels st items site)
          (AdminKey.thirdParty app' model') = some e
        ∧ X ∈ e.inlines := by
  intro items
  induction items with
  | nil => intro site h; exact h
  | cons p rest ih =>
    intro site h
    rcases p with ⟨vt, tm⟩
    simp only [adminStartupPhase2]
    exact ih _ (foldl_addVelcro_keeps_inline md rels st vt app' model' X tm.apps site h)

theorem phase2_adds_inline (md : Metadata) (rels : Relationships) (st : Settings)
    (hin : st.VELCRO_INLINES = true) :
    ∀ (items : List (String × TypeMeta)) (site : AdminSite) (vt : String) (tm : TypeMeta)
      (mm : ModelMeta) (X : String), (vt, tm) ∈ items → mm ∈ tm.apps →
      X ∈ get_relationship_inlines md rels vt [] →
      ∃ e, siteLookup (adminStartupPhase2 md rels st items site)
          (AdminKey.thirdParty mm.app_label mm.model) = some e
        ∧ X ∈ e.inlines := by
  intro items
  induction items with
  | nil => intro site vt tm mm X hvt; simp at hvt
  | cons p rest ih =>
    intro site vt tm mm X hvt hmm hX
    rcases List.mem_cons.mp hvt with h | h
    · subst h
      simp only [adminStartupPhase2]
      apply phase2_keeps_inline
      exact foldl_addVelcro_adds_inline md rels st vt hin X hX tm.apps site mm hmm
    · rcases p with ⟨vt0, tm0⟩
      simp only [adminStartupPhase2]
      exact ih _ vt tm mm X h hmm hX

/-! ## Claim C6 -/

/-- C6: start-up wires the admin layer for every relationship tuple: the
`'{A}{B}RelationshipAdmin'` class (with `order_by` read-only) is
registered for the relationship model; with `VELCRO_INLINES` enabled an
inline class is generated for each direction (the reverse direction being
the `ReverseInline` for reflexive tuples); and the forward inline
`'{T}To{R}RelationshipInline'` is appended to the inlines of the
registered admin of every model listed in `VELCRO_METADATA` for each
participating velcro type. -/
theorem C6_admin_wiring (md : Metadata) (rels : Relationships) (st : Settings)
    (origSite : AdminSite) (r : String × String) (hr : r ∈ rels)
    (hin : st.VELCRO_INLINES = true) :
    (siteLookup (admin_startup md rels st origSite).2
        (AdminKey.relationship
          (pyCapitalize (sortPairStr r.1 r.2).1 ++ pyCapitalize (sortPairStr r.1 r.2).2
            ++ "Relationship"))
      = some ⟨(pyCapitalize (sortPairStr r.1 r.2).1 ++ pyCapitalize (sortPairStr r.1 r.2).2
            ++ "Relationship") ++ "Admin", true, ["order_by"], []⟩)
    ∧ relationshipInlineName (sortPairStr r.1 r.2).1 (sortPairStr r.1 r.2).2
        ∈ (admin_startup md rels st origSite).1.map Prod.fst
    ∧ (if (sortPairStr r.1 r.2).1 = (sortPairStr r.1 r.2).2
       then relationshipReverseInlineName (sortPairStr r.1 r.2).1 (sortPairStr r.1 r.2).2
       else relationshipInlineName (sortPairStr r.1 r.2).2 (sortPairStr r.1 r.2).1)
        ∈ (admin_startup md rels st origSite).1.map Prod.fst
    ∧ (∀ vt other, ((vt, other) = r ∨ (vt, other) = (r.2, r.1)) →
        ∀ tm mm, (vt, tm) ∈ md → mm ∈ tm.apps →
          ∃ e, siteLookup (admin_startup md rels st origSite).2
              (AdminKey.thirdParty mm.app_label mm.model) = some e
            ∧ relationshipInlineName vt other ∈ e.inlines) := by
  refine ⟨?_, ?_, ?_, ?_⟩
  · show siteLookup
        (adminStartupPhase2 md rels st md (adminStartupPhase1 md st rels ([], origSite)).2)
        _ = _
    rw [phase2_keeps_relationship_key]
    exact phase1_registers_relationship_admin md st rels ([], origSite) r hr
  · show _ ∈ (adminStartupPhase1 md st rels ([], origSite)).1.map Prod.fst
    rw [← generate_inline_model_fwd_name md st r]
    exact (phase1_generates_inlines md st rels ([], origSite) r hr hin).1
  · show _ ∈ (adminStartupPhase1 md st rels ([], origSite)).1.map Prod.fst
    rw [← generate_inline_model_rev_name md st r]
    exact (phase1_generates_inlines md st rels ([], origSite) r hr hin).2
  · intro vt other hor tm mm htm hmm
    show ∃ e, siteLookup
        (adminStartupPhase2 md rels st md (adminStartupPhase1 md st rels ([], origSite)).2)
        _ = some e ∧ _
    exact phase2_adds_inline md rels st hin md _ vt tm mm
      (relationshipInlineName vt other) htm hmm
      (mem_get_relationship_inlines md rels vt other r hr hor)

/-- C6 witness: the admin wiring evaluated on the example configuration,
for the `('data', 'publication')` relationship and the registered admin of
the `Data` model. -/
theorem C6_admin_wiring_witness :
    (("data", "publication") ∈ exampleRels)
    ∧ defaultSettings.VELCRO_INLINES = true
    ∧ siteLookup
        (admin_startup exampleMd exampleRels defaultSettings
          [(AdminKey.thirdParty "data" "Data", ⟨"DataAdmin", false, [], []⟩)]).2
        (AdminKey.relationship
          (pyCapitalize (sortPairStr "data" "publication").1
            ++ pyCapitalize (sortPairStr "data" "publication").2 ++ "Relationship"))
      = some ⟨(pyCapitalize (sortPairStr "data" "publication").1
            ++ pyCapitalize (sortPairStr "data" "publication").2 ++ "Relationship")
          ++ "Admin", true, ["order_by"], []⟩ :=
  ⟨by decide, by decide,
    (C6_admin_wiring exampleMd exampleRels defaultSettings
      [(AdminKey.thirdParty "data" "Data", ⟨"DataAdmin", false, [], []⟩)]
      ("data", "publication") (by decide) (by decide)).1⟩

end Velcro
